import Mathlib

set_option maxRecDepth 100000

/-!
Shallow embedding of the s3bench workload generator (Go) for claim checking.

Bytes are modelled as `Nat` values below 256, Go `int64` as `Int` with
explicit two's-complement reduction where machine semantics matter, and
Go strings as Lean `String` (byte content via UTF-8 encoding).
-/

/-- Reduce a natural number modulo 2^64 (Go uint64 wrap-around). -/
def u64 (n : Nat) : Nat := n % 18446744073709551616

/-- Reduce a natural number modulo 2^32 (Go uint32 wrap-around). -/
def u32 (n : Nat) : Nat := n % 4294967296

/-- View a Go int64 as its two's-complement bit pattern (a Nat below 2^64). -/
def int64AsNat (x : Int) : Nat := (x % 18446744073709551616).toNat

/-- Recover the signed Go int64 value from a two's-complement bit pattern. -/
def natAsInt64 (n : Nat) : Int :=
  if n < 9223372036854775808 then (n : Int) else (n : Int) - 18446744073709551616

/-- Bitwise XOR of two Go int64 values (two's complement). -/
def int64Xor (a b : Int) : Int := natAsInt64 (Nat.xor (int64AsNat a) (int64AsNat b))

/-- UTF-8 encoding of a single character, as Go produces for a byte slice of a string. -/
def utf8Bytes (c : Char) : List Nat :=
  let n := c.toNat
  if n < 128 then [n]
  else if n < 2048 then [192 + n / 64, 128 + n % 64]
  else if n < 65536 then [224 + n / 4096, 128 + (n / 64) % 64, 128 + n % 64]
  else [240 + n / 262144, 128 + (n / 4096) % 64, 128 + (n / 64) % 64, 128 + n % 64]

/-- Byte content of a Go string (UTF-8). -/
def strBytes (s : String) : List Nat := (s.data.map utf8Bytes).flatten

/-- Right rotation of a 32-bit word. -/
def rotr32 (n x : Nat) : Nat := u32 ((x >>> n) ||| (x <<< (32 - n)))

/-- SHA-256 small sigma 0. -/
def ssig0 (x : Nat) : Nat := (rotr32 7 x) ^^^ (rotr32 18 x) ^^^ (x >>> 3)

/-- SHA-256 small sigma 1. -/
def ssig1 (x : Nat) : Nat := (rotr32 17 x) ^^^ (rotr32 19 x) ^^^ (x >>> 10)

/-- SHA-256 big sigma 0. -/
def bsig0 (x : Nat) : Nat := (rotr32 2 x) ^^^ (rotr32 13 x) ^^^ (rotr32 22 x)

/-- SHA-256 big sigma 1. -/
def bsig1 (x : Nat) : Nat := (rotr32 6 x) ^^^ (rotr32 11 x) ^^^ (rotr32 25 x)

/-- SHA-256 Ch function. -/
def shaCh (e f g : Nat) : Nat := (e &&& f) ^^^ ((e ^^^ 4294967295) &&& g)

/-- SHA-256 Maj function. -/
def shaMaj (a b c : Nat) : Nat := (a &&& b) ^^^ (a &&& c) ^^^ (b &&& c)

/-- Value of a lowercase hexadecimal digit character. -/
def hexNib (c : Char) : Nat :=
  if 97 ≤ c.toNat then c.toNat - 87 else c.toNat - 48

/-- Decodes a lowercase hex string into 32-bit words, eight digits per word. -/
def wordsOfHex : List Char → List Nat
  | a :: b :: c :: d :: e :: f :: g :: h :: rest =>
      (((((((hexNib a * 16 + hexNib b) * 16 + hexNib c) * 16 + hexNib d) * 16 + hexNib e) * 16 +
        hexNib f) * 16 + hexNib g) * 16 + hexNib h) :: wordsOfHex rest
  | _ => []

/-- SHA-256 round constants. -/
def shaK : List Nat :=
  wordsOfHex (String.data
    ("428a2f9871374491b5c0fbcfe9b5dba53956c25b59f111f1923f82a4ab1c5ed5d807aa9812835b01243185be550c7dc372be5d7480deb1fe9bdc06a7c19bf174" ++
     "e49b69c1efbe47860fc19dc6240ca1cc2de92c6f4a7484aa5cb0a9dc76f988da983e5152a831c66db00327c8bf597fc7c6e00bf3d5a7914706ca635114292967" ++
     "27b70a852e1b21384d2c6dfc53380d13650a7354766a0abb81c2c92e92722c85a2bfe8a1a81a664bc24b8b70c76c51a3d192e819d6990624f40e3585106aa070" ++
     "19a4c1161e376c082748774c34b0bcb5391c0cb34ed8aa4a5b9cca4f682e6ff3748f82ee78a5636f84c878148cc7020890befffaa4506cebbef9a3f7c67178f2"))

/-- SHA-256 initial hash state. -/
def shaH0 : List Nat :=
  wordsOfHex "6a09e667bb67ae853c6ef372a54ff53a510e527f9b05688c1f83d9ab5be0cd19".data

/-- Big-endian 8-byte encoding of a (64-bit) natural number. -/
def be64 (n : Nat) : List Nat :=
  [(n >>> 56) % 256, (n >>> 48) % 256, (n >>> 40) % 256, (n >>> 32) % 256,
   (n >>> 24) % 256, (n >>> 16) % 256, (n >>> 8) % 256, n % 256]

/-- Big-endian 4-byte encoding of a 32-bit word. -/
def be32 (n : Nat) : List Nat := [(n >>> 24) % 256, (n >>> 16) % 256, (n >>> 8) % 256, n % 256]

/-- SHA-256 padding: append 0x80, zeros, and the 64-bit bit length. -/
def shaPad (msg : List Nat) : List Nat :=
  msg ++ [128] ++ List.replicate ((119 - (msg.length % 64)) % 64) 0 ++ be64 (8 * msg.length)

/-- Group bytes into big-endian 32-bit words. -/
def bytesToWords : List Nat → List Nat
  | b0 :: b1 :: b2 :: b3 :: rest => (b0 <<< 24 ||| b1 <<< 16 ||| b2 <<< 8 ||| b3) :: bytesToWords rest
  | _ => []

/-- Split a byte list into 64-byte blocks (fuel-driven structural recursion). -/
def chunks64 : Nat → List Nat → List (List Nat)
  | 0, _ => []
  | _, [] => []
  | fuel + 1, l => l.take 64 :: chunks64 fuel (l.drop 64)

/-- Extend a 16-word block to the 64-word SHA-256 message schedule. -/
def shaExtend : Nat → List Nat → List Nat
  | 0, w => w
  | fuel + 1, w =>
      let t := w.length
      let wt := u32 (ssig1 (w.getD (t - 2) 0) + w.getD (t - 7) 0 +
                     ssig0 (w.getD (t - 15) 0) + w.getD (t - 16) 0)
      shaExtend fuel (w ++ [wt])

/-- One SHA-256 round applied to the 8-word working state. -/
def shaRound (st : List Nat) (kw : Nat × Nat) : List Nat :=
  let a := st.getD 0 0
  let b := st.getD 1 0
  let c := st.getD 2 0
  let d := st.getD 3 0
  let e := st.getD 4 0
  let f := st.getD 5 0
  let g := st.getD 6 0
  let h := st.getD 7 0
  let t1 := u32 (h + bsig1 e + shaCh e f g + kw.1 + kw.2)
  let t2 := u32 (bsig0 a + shaMaj a b c)
  [u32 (t1 + t2), a, b, c, u32 (d + t1), e, f, g]

/-- SHA-256 compression of one block into the running hash state. -/
def shaCompress (hs : List Nat) (block : List Nat) : List Nat :=
  let w := shaExtend 48 (bytesToWords block)
  let st := (shaK.zip w).foldl (fun s kw => shaRound s (kw.1, kw.2)) hs
  List.zipWith (fun x y => u32 (x + y)) hs st

/-- SHA-256 digest (32 bytes) of a byte list, as crypto/sha256 computes. -/
def sha256Bytes (msg : List Nat) : List Nat :=
  let padded := shaPad msg
  let hs := (chunks64 padded.length padded).foldl shaCompress shaH0
  (hs.map be32).flatten

/-- Lowercase hex digit for a value below 16, as encoding/hex produces. -/
def hexDigitChar (n : Nat) : Char := if n < 10 then Char.ofNat (48 + n) else Char.ofNat (87 + n)

/-- Lowercase hex encoding of a byte list (encoding/hex.EncodeToString). -/
def hexEncode (bs : List Nat) : String :=
  ⟨(bs.map (fun b => [hexDigitChar (b / 16), hexDigitChar (b % 16)])).flatten⟩

/-- Value of a hex digit character, if valid (encoding/hex). -/
def hexDigitVal (c : Char) : Option Nat :=
  if 48 ≤ c.toNat ∧ c.toNat ≤ 57 then some (c.toNat - 48)
  else if 97 ≤ c.toNat ∧ c.toNat ≤ 102 then some (c.toNat - 87)
  else if 65 ≤ c.toNat ∧ c.toNat ≤ 70 then some (c.toNat - 55)
  else none

/-- Hex decoding of a string to bytes; fails on odd length or invalid digits. -/
def hexDecode : List Char → Option (List Nat)
  | [] => some []
  | [_] => none
  | a :: b :: rest =>
      match hexDigitVal a, hexDigitVal b, hexDecode rest with
      | some x, some y, some bs => some ((16 * x + y) :: bs)
      | _, _, _ => none

/-- SHA-256 of the empty input matches the published test vector. -/
theorem sha256_empty_vector :
    hexEncode (sha256Bytes []) = "e3b0c44298fc1c149afbf4c8996fb92427ae41e4649b934ca495991b7852b855" := by
  decide

/-- SHA-256 of "hello world" matches the vector asserted in the repository's verifier test. -/
theorem sha256_hello_world_vector :
    hexEncode (sha256Bytes (strBytes "hello world")) =
      "b94d27b9934d3e08a52e52d7da7dabfac484efe37a5380ee9088f7ace2efcde9" := by
  decide

/-!
Data generator (internal/data/generator.go): `Generator`, `randomReader`,
`fixedReader`. Go's math/rand (`rand.New(rand.NewSource(seed))` followed by
sequential `Read`) is a deterministic pure byte stream of the seed; it is
modelled here by the explicit pure function `prngByte` (a splitmix64-style
mix), since every claim about the reader depends only on determinism and on
how many stream bytes have been consumed, never on particular byte values
of Go's generator.
-/

/-- Splitmix64-style finalizing mix on 64-bit words. -/
def mix64 (x : Nat) : Nat :=
  let x := u64 x
  let x := u64 ((x ^^^ (x >>> 30)) * 13787848793156543929)
  let x := u64 ((x ^^^ (x >>> 27)) * 10723151780598845931)
  x ^^^ (x >>> 31)

/-- Byte i of the deterministic PRNG stream for a given seed (models math/rand). -/
def prngByte (seed : Int) (i : Nat) : Nat :=
  mix64 (u64 (int64AsNat seed + (i + 1) * 11400714819323198485)) % 256

/-- The next n stream bytes starting at stream offset `start`. -/
def prngBytes (seed : Int) (start n : Nat) : List Nat :=
  (List.range n).map (fun j => prngByte seed (start + j))

/-- State of `randomReader`: `consumed` counts PRNG stream bytes already produced
by `rng` (the Go struct holds the rng object itself; its state is exactly how
many bytes it has emitted). -/
structure RandomReader where
  seed : Int
  size : Int
  position : Int
  consumed : Nat
deriving Repr, DecidableEq

/-- State of `fixedReader`. -/
structure FixedReader where
  pattern : List Nat
  size : Int
  position : Int
deriving Repr, DecidableEq

/-- newRandomReader: mixes the first four SHA-256 bytes of the key
(little-endian) into the base seed by XOR. -/
def newRandomReader (key : String) (baseSeed : Int) (size : Int) : RandomReader :=
  let h := sha256Bytes (strBytes key)
  let keySeed : Int :=
    ((h.getD 0 0) ||| ((h.getD 1 0) <<< 8) ||| ((h.getD 2 0) <<< 16) ||| ((h.getD 3 0) <<< 24) : Nat)
  { seed := int64Xor baseSeed keySeed, size := size, position := 0, consumed := 0 }

/-- randomReader.Read with a destination buffer of length n: returns the bytes
written and the new state. At EOF returns no bytes. -/
def RandomReader.read (r : RandomReader) (n : Nat) : List Nat × RandomReader :=
  if r.size ≤ r.position then ([], r)
  else
    let k := (min (n : Int) (r.size - r.position)).toNat
    (prngBytes r.seed r.consumed k,
     { r with position := r.position + k, consumed := r.consumed + k })

/-- io.ReadAll over a randomReader: drains the remaining bytes until EOF. -/
def RandomReader.readAll (r : RandomReader) : List Nat × RandomReader :=
  r.read (r.size - r.position).toNat

/-- Seek whence values (io.SeekStart, io.SeekCurrent, io.SeekEnd). -/
inductive Whence where
  | start
  | current
  | fromEnd
deriving Repr, DecidableEq

/-- randomReader.Seek: clamps past-the-end positions to size; seeking to 0
resets the rng; seeking backwards resets the rng and fast-forwards by reading
and discarding `newPos` bytes (io.CopyN to io.Discard); a forward seek only
moves the position counter. -/
def RandomReader.seek (r : RandomReader) (offset : Int) (w : Whence) :
    Except String (Int × RandomReader) :=
  let newPos : Int :=
    match w with
    | .start => offset
    | .current => r.position + offset
    | .fromEnd => r.size + offset
  if newPos < 0 then .error "negative position"
  else
    let np := if r.size < newPos then r.size else newPos
    if np = 0 then .ok (0, { r with position := 0, consumed := 0 })
    else if np < r.position then
      let reset : RandomReader := { r with position := 0, consumed := 0 }
      let ff := reset.read np.toNat
      .ok (ff.2.position, ff.2)
    else .ok (np, { r with position := np })

/-- fixedReader.Read: repeats the pattern with offset position mod pattern length. -/
def FixedReader.read (f : FixedReader) (n : Nat) : List Nat × FixedReader :=
  if f.size ≤ f.position then ([], f)
  else
    let k := (min (n : Int) (f.size - f.position)).toNat
    ((List.range k).map
       (fun i : Nat => f.pattern.getD (((f.position + (i : Int)) % (f.pattern.length : Int)).toNat) 0),
     { f with position := f.position + k })

/-- io.ReadAll over a fixedReader. -/
def FixedReader.readAll (f : FixedReader) : List Nat × FixedReader :=
  f.read (f.size - f.position).toNat

/-- fixedReader.Seek: errors past the end instead of clamping. -/
def FixedReader.seek (f : FixedReader) (offset : Int) (w : Whence) :
    Except String (Int × FixedReader) :=
  let newPos : Int :=
    match w with
    | .start => offset
    | .current => f.position + offset
    | .fromEnd => f.size + offset
  if newPos < 0 then .error "negative position"
  else if f.size < newPos then .error "position beyond size"
  else .ok (newPos, { f with position := newPos })

/-- The io.ReadSeeker returned by Generator.Generate is one of the two reader kinds. -/
inductive GoReader where
  | random (r : RandomReader)
  | fixedR (f : FixedReader)
deriving Repr, DecidableEq

/-- Read n bytes from either reader kind. -/
def GoReader.read (r : GoReader) (n : Nat) : List Nat × GoReader :=
  match r with
  | .random rr => let p := rr.read n; (p.1, .random p.2)
  | .fixedR fr => let p := fr.read n; (p.1, .fixedR p.2)

/-- io.ReadAll from either reader kind. -/
def GoReader.readAll (r : GoReader) : List Nat × GoReader :=
  match r with
  | .random rr => let p := rr.readAll; (p.1, .random p.2)
  | .fixedR fr => let p := fr.readAll; (p.1, .fixedR p.2)

/-- Seek on either reader kind. -/
def GoReader.seek (r : GoReader) (offset : Int) (w : Whence) : Except String (Int × GoReader) :=
  match r with
  | .random rr =>
      match rr.seek offset w with
      | .error e => .error e
      | .ok (p, r2) => .ok (p, .random r2)
  | .fixedR fr =>
      match fr.seek offset w with
      | .error e => .error e
      | .ok (p, r2) => .ok (p, .fixedR r2)

/-- Generator state: pattern string plus the parsed seed or fixed bytes. -/
structure Generator where
  pattern : String
  seed : Int
  fixed : List Nat
deriving Repr, DecidableEq

/-- strings.SplitN(s, sep, 2) on a one-character separator: the parts before and
after the first occurrence, if any. -/
def splitOnceChar (sep : Char) : List Char → Option (List Char × List Char)
  | [] => none
  | c :: rest =>
      if c = sep then some ([], rest)
      else
        match splitOnceChar sep rest with
        | some p => some (c :: p.1, p.2)
        | none => none

/-- Decimal value of a digit list. -/
def digitsVal (ds : List Char) : Nat := ds.foldl (fun a c => 10 * a + (c.toNat - 48)) 0

/-- strconv.ParseInt(s, 10, 64): optional sign, decimal digits, int64 range check. -/
def goParseInt64 (s : List Char) : Option Int :=
  let p : Bool × List Char :=
    match s with
    | '-' :: rest => (true, rest)
    | '+' :: rest => (false, rest)
    | _ => (false, s)
  if p.2.isEmpty then none
  else if p.2.all Char.isDigit then
    let v : Int := if p.1 then -((digitsVal p.2 : Int)) else (digitsVal p.2 : Int)
    if -9223372036854775808 ≤ v ∧ v ≤ 9223372036854775807 then some v else none
  else none

/-- NewGenerator: parses a pattern of shape type:value with types random
(decimal seed) and fixed (non-empty hex bytes). -/
def NewGenerator (pattern : String) : Except String Generator :=
  match splitOnceChar ':' pattern.data with
  | none => .error "invalid pattern format, expected type:value"
  | some parts =>
      if parts.1 = "random".data then
        match goParseInt64 parts.2 with
        | none => .error "invalid random seed"
        | some seed => .ok { pattern := pattern, seed := seed, fixed := [] }
      else if parts.1 = "fixed".data then
        match hexDecode parts.2 with
        | none => .error "invalid fixed hex data"
        | some [] => .error "fixed data cannot be empty"
        | some bs => .ok { pattern := pattern, seed := 0, fixed := bs }
      else .error "unknown pattern type"

/-- Generator.Generate: dispatches on seed != 0, then a non-empty fixed
pattern, then the defensive default of a fixed reader over one zero byte. -/
def Generator.Generate (g : Generator) (key : String) (size : Int) : GoReader :=
  if g.seed ≠ 0 then .random (newRandomReader key g.seed size)
  else if 0 < g.fixed.length then .fixedR { pattern := g.fixed, size := size, position := 0 }
  else .fixedR { pattern := [0], size := size, position := 0 }

/-- Generator.GenerateAndHash: streams the payload through SHA-256, then
seeks the reader back to offset 0. -/
def Generator.GenerateAndHash (g : Generator) (key : String) (size : Int) :
    Except String (GoReader × String) :=
  let r := g.Generate key size
  let drained := r.readAll
  let hash := hexEncode (sha256Bytes drained.1)
  match drained.2.seek 0 .start with
  | .error e => .error e
  | .ok p => .ok (p.2, hash)

/-!
Key generator (internal/workload/keygen.go): template rendering with a
single seq placeholder. Brace characters are written via Char.ofNat.
-/

/-- The character with code 123 (opening brace). -/
def lbrace : Char := Char.ofNat 123

/-- The character with code 125 (closing brace). -/
def rbrace : Char := Char.ofNat 125

/-- Whether the list starts with the given pattern (strings.HasPrefix shape). -/
def listStartsWith : List Char → List Char → Bool
  | _, [] => true
  | [], _ :: _ => false
  | c :: cs, p :: ps => c = p && listStartsWith cs ps

/-- The marker opener, the four characters brace-s-e-q. -/
def seqMarkerOpen : List Char := [lbrace, 's', 'e', 'q']

/-- Index of the first occurrence of the four-character marker opener, if any
(the scan template[i:i+4] == the opener). -/
def findSeqStart : List Char → Option Nat
  | [] => none
  | c :: rest =>
      if listStartsWith (c :: rest) seqMarkerOpen then some 0
      else (findSeqStart rest).map (fun n => n + 1)

/-- Index of the first occurrence of a character, if any. -/
def findCharIdx (c : Char) : List Char → Option Nat
  | [] => none
  | x :: rest => if x = c then some 0 else (findCharIdx c rest).map (fun n => n + 1)

/-- Decimal digit characters of a natural number (helper with fuel). -/
def natDigitsAux : Nat → Nat → List Char
  | 0, _ => []
  | fuel + 1, n =>
      if n < 10 then [Char.ofNat (48 + n)]
      else natDigitsAux fuel (n / 10) ++ [Char.ofNat (48 + n % 10)]

/-- Decimal digit characters of a natural number. -/
def natDigits (n : Nat) : List Char := natDigitsAux (n + 1) n

/-- strconv.Itoa on a Go int. -/
def itoaChars (i : Int) : List Char :=
  if i < 0 then '-' :: natDigits i.natAbs else natDigits i.toNat

/-- fmt.Sprintf with verb %0*d: decimal, zero-padded to the given minimum
width, the sign counting toward the width. -/
def padIntChars (width : Int) (i : Int) : List Char :=
  let ds := natDigits i.natAbs
  let sign : List Char := if i < 0 then ['-'] else []
  if width.toNat ≤ sign.length + ds.length then sign ++ ds
  else sign ++ List.replicate (width.toNat - (sign.length + ds.length)) '0' ++ ds

/-- replacePlaceholder: finds the first seq marker, the first closing brace at
or after it, and substitutes the formatted sequence number. -/
def replacePlaceholder (template : List Char) (seq : Int) : List Char :=
  match findSeqStart template with
  | none => template
  | some s =>
      match findCharIdx rbrace (template.drop s) with
      | none => template
      | some off =>
          let ph := (template.drop s).take (off + 1)
          let formatted :=
            if ph = seqMarkerOpen ++ [rbrace] then itoaChars seq
            else if listStartsWith ph (seqMarkerOpen ++ [':']) then
              let fmt := (ph.drop 5).take (ph.length - 6)
              match goParseInt64 fmt with
              | some w => if 0 < w then padIntChars w seq else itoaChars seq
              | none => itoaChars seq
            else itoaChars seq
          template.take s ++ formatted ++ template.drop (s + off + 1)

/-- KeyGenerator state; the Go field named after the key prefix is called
pfx here. -/
structure KeyGenerator where
  pfx : String
  template : String
  keys : Int
deriving Repr, DecidableEq

/-- KeyGenerator.Generate: prefix concatenated with the rendered template. -/
def KeyGenerator.Generate (kg : KeyGenerator) (seq : Int) : String :=
  kg.pfx ++ ⟨replacePlaceholder kg.template.data seq⟩

/-!
Size parsing and size distributions (internal/data/generator.go). Go float64
arithmetic on short decimal literals and the integer multipliers of the unit
table is exact, so it is modelled with rational numbers.
-/

/-- Whitespace predicate used by strings.TrimSpace (ASCII subset). -/
def isSpaceGo (c : Char) : Bool :=
  c = ' ' || c = '\t' || c = '\n' || c = Char.ofNat 11 || c = Char.ofNat 12 || c = '\r'

/-- strings.TrimSpace on a character list. -/
def trimChars (l : List Char) : List Char :=
  ((l.dropWhile isSpaceGo).reverse.dropWhile isSpaceGo).reverse

/-- Characters allowed in the numeric part of a size string. -/
def isNumChar (c : Char) : Bool := c.isDigit || c = '.'

/-- Split a size string into its numeric part and its unit part: the unit
starts at the first character that is neither a digit nor a dot. -/
def splitNumUnit (l : List Char) : List Char × List Char :=
  (l.takeWhile isNumChar, l.dropWhile isNumChar)

/-- strconv.ParseFloat restricted to the digit-and-dot strings that can reach
it here: at most one dot and at least one digit. The value is returned as an
exact numerator and power-of-ten denominator (Go float64 arithmetic on the
short decimal literals and integer multipliers exercised by the spec is
exact). -/
def parseDecimalNum (l : List Char) : Option (Nat × Nat) :=
  match splitOnceChar '.' l with
  | none => if l ≠ [] ∧ l.all Char.isDigit then some (digitsVal l, 1) else none
  | some p =>
      if (p.1 ++ p.2) ≠ [] ∧ p.1.all Char.isDigit ∧ p.2.all Char.isDigit ∧ ¬ p.2.contains '.' then
        some (digitsVal p.1 * 10 ^ p.2.length + digitsVal p.2, 10 ^ p.2.length)
      else none

/-- The unit table of ParseSize, matched on the upper-cased unit string. -/
def unitMultiplier (u : List Char) : Option Int :=
  let s := u.map Char.toUpper
  if s = [] ∨ s = "B".data then some 1
  else if s = "KB".data ∨ s = "K".data then some 1000
  else if s = "KIB".data ∨ s = "KI".data then some 1024
  else if s = "MB".data ∨ s = "M".data then some 1000000
  else if s = "MIB".data ∨ s = "MI".data then some 1048576
  else if s = "GB".data ∨ s = "G".data then some 1000000000
  else if s = "GIB".data ∨ s = "GI".data then some 1073741824
  else none

/-- ParseSize: trims, rejects empty input, splits number and unit, parses the
number as a float (exact rational here), resolves the unit multiplier
case-insensitively, and truncates the product to int64. -/
def ParseSize (s : String) : Except String Int :=
  let t := trimChars s.data
  if t.isEmpty then .error "empty size string"
  else
    let nu := splitNumUnit t
    if nu.1.isEmpty then .error "no number found in size string"
    else
      match parseDecimalNum nu.1 with
      | none => .error "invalid number"
      | some v =>
          match unitMultiplier (trimChars nu.2) with
          | none => .error "unknown unit"
          | some m => .ok ((v.1 : Int) * m / (v.2 : Int))

/-- Parsed size distributions. The internal PRNG seeded at construction is
not part of the parse result here; draws are passed explicitly to next. -/
inductive SizeDistribution where
  | fixedSize (size : Int)
  | logNormal (mean : Int) (stdNum : Nat) (stdDen : Nat)
  | uniform (lo hi : Int)
deriving Repr, DecidableEq

/-- strings.Split on a one-character separator (keeps empty fields). -/
def splitAll (sep : Char) : List Char → List (List Char)
  | [] => [[]]
  | c :: rest =>
      let r := splitAll sep rest
      if c = sep then [] :: r
      else
        match r with
        | h :: t => (c :: h) :: t
        | [] => [[c]]

/-- parseParams: comma-separated key=value pairs, both sides trimmed; pairs
without an equals sign are dropped. Go builds a map, so a repeated key keeps
its last value; lookups below take the last match. -/
def parseParams (l : List Char) : List (List Char × List Char) :=
  (splitAll ',' l).foldr
    (fun pair acc =>
      match splitOnceChar '=' pair with
      | some p => (trimChars p.1, trimChars p.2) :: acc
      | none => acc) []

/-- Last-match lookup (Go map insertion overwrites). -/
def lookupLast (ps : List (List Char × List Char)) (k : List Char) : Option (List Char) :=
  ps.foldl (fun acc p => if p.1 = k then some p.2 else acc) none

/-- ParseSizeDistribution: fixed:SIZE, dist:lognormal:mean=...,std=..., or
uniform:min=...,max=.... The seed argument only seeds the internal PRNG in Go
and does not affect the parse result. -/
def ParseSizeDistribution (s : String) (_seed : Int) : Except String SizeDistribution :=
  match splitOnceChar ':' s.data with
  | none => .error "invalid size distribution format"
  | some parts =>
      if parts.1 = "fixed".data then
        match ParseSize ⟨parts.2⟩ with
        | .error _ => .error "invalid fixed size"
        | .ok size => .ok (.fixedSize size)
      else if parts.1 = "dist".data then
        match splitOnceChar ':' parts.2 with
        | none => .error "invalid distribution format"
        | some sub =>
            if sub.1 = "lognormal".data then
              match lookupLast (parseParams sub.2) "mean".data with
              | none => .error "lognormal distribution requires mean parameter"
              | some meanStr =>
                  match ParseSize ⟨meanStr⟩ with
                  | .error _ => .error "invalid mean"
                  | .ok mean =>
                      let stdStr := (lookupLast (parseParams sub.2) "std".data).getD "0.5".data
                      match parseDecimalNum stdStr with
                      | none => .error "invalid std"
                      | some std => .ok (.logNormal mean std.1 std.2)
            else .error "unknown distribution type"
      else if parts.1 = "uniform".data then
        match lookupLast (parseParams parts.2) "min".data with
        | none => .error "uniform distribution requires min parameter"
        | some minStr =>
            match ParseSize ⟨minStr⟩ with
            | .error _ => .error "invalid min"
            | .ok lo =>
                match lookupLast (parseParams parts.2) "max".data with
                | none => .error "uniform distribution requires max parameter"
                | some maxStr =>
                    match ParseSize ⟨maxStr⟩ with
                    | .error _ => .error "invalid max"
                    | .ok hi => .ok (.uniform lo hi)
      else .error "unknown size type"

/-- UniformSize.Next with the rand.Int63n draw passed explicitly: Int63n(n)
returns the draw (a value in [0, n)) when n is positive and panics (none)
when n is not positive; the min == max short-circuit precedes it. -/
def uniformSizeNext (lo hi : Int) (draw : Int) : Option Int :=
  if lo = hi then some lo
  else if hi - lo + 1 ≤ 0 then none
  else some (lo + draw)

/-!
Retry policy (internal/s3/retry.go): WithRetry, isRetryable, contains.
time.Duration values are modelled as exact rationals (nanoseconds); the
jitter draw rand.Float64 and the per-attempt results of the retried function
are passed in as explicit oracles indexed by attempt number.
-/

/-- findSubstring as written in the source: scans every window. -/
def findSubstring : List Char → List Char → Bool
  | _, [] => true
  | [], _ :: _ => false
  | c :: rest, sub => listStartsWith (c :: rest) sub || findSubstring rest sub

/-- contains(s, substr): length guard plus window scan. -/
def containsSub (s sub : List Char) : Bool :=
  sub.length ≤ s.length && findSubstring s sub

/-- isRetryable: substring match of the error text against the fixed list of
network and S3 transient error markers. -/
def isRetryable (err : String) : Bool :=
  let e := err.data
  containsSub e "connection refused".data || containsSub e "connection reset".data ||
  containsSub e "broken pipe".data || containsSub e "timeout".data ||
  containsSub e "deadline exceeded".data ||
  containsSub e "SlowDown".data || containsSub e "ServiceUnavailable".data ||
  containsSub e "InternalError".data || containsSub e "RequestTimeout".data

/-- RetryConfig; durations in nanoseconds as exact rationals. -/
structure RetryConfig where
  maxAttempts : Int
  initialDelay : ℚ
  maxDelay : ℚ
  multiplier : ℚ
  jitter : Bool
deriving Repr, DecidableEq

/-- DefaultRetryConfig: 3 attempts, 100ms initial delay, 30s max delay,
multiplier 2, jitter on. -/
def DefaultRetryConfig : RetryConfig :=
  { maxAttempts := 3, initialDelay := 100000000, maxDelay := 30000000000,
    multiplier := 2, jitter := true }

/-- Decidable equality for Except values. -/
instance {ε α : Type} [DecidableEq ε] [DecidableEq α] : DecidableEq (Except ε α) := fun a b =>
  match a, b with
  | .ok x, .ok y =>
      if h : x = y then .isTrue (congrArg Except.ok h)
      else .isFalse (fun hc => h (Except.ok.inj hc))
  | .error x, .error y =>
      if h : x = y then .isTrue (congrArg Except.error h)
      else .isFalse (fun hc => h (Except.error.inj hc))
  | .ok _, .error _ => .isFalse (fun hc => Except.noConfusion hc)
  | .error _, .ok _ => .isFalse (fun hc => Except.noConfusion hc)

/-- Observable outcome of WithRetry: how many times fn ran, the backoff
slept before each retry, and the returned error if any. -/
structure RetryResult where
  attempts : Nat
  backoffs : List ℚ
  outcome : Except String Unit
deriving Repr, DecidableEq

/-- The post-backoff delay update of the loop: delay = delay * multiplier,
clamped down to maxDelay when it exceeds it. -/
def delayStep (cfg : RetryConfig) (delay : ℚ) : ℚ :=
  let d2 := delay * cfg.multiplier
  if cfg.maxDelay < d2 then cfg.maxDelay else d2

/-- The WithRetry loop body. fuel counts the attempts still allowed, so the
Go condition attempt == cfg.MaxAttempts is fuel = 1 here; errs gives the
error of each attempt (none = success) and jd the jitter draw before each
retry. The backoff is the current delay, scaled by the draw when jitter is
on; afterwards the delay is multiplied and clamped to maxDelay. -/
def withRetryAux (cfg : RetryConfig) (errs : Nat → Option String) (jd : Nat → ℚ) :
    Nat → Nat → ℚ → String → RetryResult
  | _, 0, _, lastErr =>
      { attempts := 0, backoffs := [], outcome := .error ("max retries exceeded: " ++ lastErr) }
  | attempt, fuel + 1, delay, _ =>
      match errs attempt with
      | none => { attempts := 1, backoffs := [], outcome := .ok () }
      | some e =>
          if ¬ isRetryable e then { attempts := 1, backoffs := [], outcome := .error e }
          else if fuel = 0 then
            { attempts := 1, backoffs := [],
              outcome := .error ("max retries exceeded: " ++ e) }
          else
            let backoff := if cfg.jitter then delay * jd attempt else delay
            let rest := withRetryAux cfg errs jd (attempt + 1) fuel (delayStep cfg delay) e
            { attempts := rest.attempts + 1, backoffs := backoff :: rest.backoffs,
              outcome := rest.outcome }

/-- WithRetry: attempts run 1..maxAttempts starting from initialDelay. -/
def WithRetry (cfg : RetryConfig) (errs : Nat → Option String) (jd : Nat → ℚ) : RetryResult :=
  withRetryAux cfg errs jd 1 cfg.maxAttempts.toNat cfg.initialDelay ""

/-!
Cleanup (internal/s3/client.go DeleteObjectsByMetadata): the paged
ListObjectsV2 scan is modelled as the list of all stored objects whose key
has the requested prefix (pages concatenate to exactly that list); each
listed object is HEADed for its metadata and deleted when the requested
metadata key maps to the requested value.
-/

/-- A stored object: key plus user metadata (the Go map as an association
list; lookup takes the first match, maps have no duplicate keys). -/
structure StoredObject where
  key : String
  metadata : List (String × String)
deriving Repr, DecidableEq

/-- Metadata lookup. -/
def metaLookup (m : List (String × String)) (k : String) : Option String :=
  match m with
  | [] => none
  | p :: rest => if p.1 = k then some p.2 else metaLookup rest k

/-- The objects a full paged ListObjectsV2 scan with the given key prefix
returns, in store order. -/
def listUnderPfx (store : List StoredObject) (pre : String) : List StoredObject :=
  store.filter (fun o => listStartsWith o.key.data pre.data)

/-- DeleteObject by key (S3 keys are unique per bucket). -/
def deleteByKey (store : List StoredObject) (k : String) : List StoredObject :=
  store.filter (fun o => o.key ≠ k)

/-- The HEAD-and-delete loop of DeleteObjectsByMetadata over the listed
objects: counts the deletions it performs on the store. -/
def cleanupLoop (mkey mval : String) :
    List StoredObject → List StoredObject → Nat × List StoredObject
  | [], store => (0, store)
  | o :: rest, store =>
      if metaLookup o.metadata mkey = some mval then
        let r := cleanupLoop mkey mval rest (deleteByKey store o.key)
        (r.1 + 1, r.2)
      else cleanupLoop mkey mval rest store

/-- DeleteObjectsByMetadata: list everything under the prefix, HEAD each
object, delete exactly the metadata matches, return the deletion count and
the resulting store. -/
def DeleteObjectsByMetadata (store : List StoredObject) (pre mkey mval : String) :
    Nat × List StoredObject :=
  cleanupLoop mkey mval (listUnderPfx store pre) store

/-!
Runner dispatch (internal/runner/runner.go): metadata preparation,
executePut, and the executeOp switch. The drawn object size and the
generated key are passed in explicitly (they come from sizeDist.Next and
keygen.Generate at the call site).
-/

/-- Metadata key for the payload digest. -/
def MetadataKeySHA256 : String := "sha256"

/-- Metadata key marking objects created by this tool. -/
def MetadataKeyCreatedBy : String := "created-by"

/-- Sentinel value for created-by. -/
def MetadataValueCreatedBy : String := "s3-workload"

/-- Whitespace trim of space and tab only (the custom trim in metadata.go). -/
def trimTabSpace (l : List Char) : List Char :=
  ((l.dropWhile (fun c => c = ' ' || c = '\t')).reverse.dropWhile
    (fun c => c = ' ' || c = '\t')).reverse

/-- splitString from metadata.go: splits on the separator; the final segment
is kept only when non-empty or when it is the only segment. -/
def goSplitString (sep : Char) (l : List Char) : List (List Char) :=
  let parts := splitAll sep l
  match parts with
  | [p] => [p]
  | _ => if parts.getLast? = some [] then parts.dropLast else parts

/-- splitTag: comma-separated k=v pairs, both sides trimmed; fragments
without exactly one equals-separated pair are dropped. -/
def splitTag (tag : String) : List (String × String) :=
  ((goSplitString ',' tag.data).filterMap
    (fun part => let t := trimTabSpace part; if t.isEmpty then none else some t)).filterMap
    (fun pair =>
      match (goSplitString '=' pair).map trimTabSpace with
      | [k, v] => some ((⟨k⟩ : String), (⟨v⟩ : String))
      | _ => none)

/-- PrepareMetadata: sha256 digest, the created-by sentinel, and any
namespace tags. -/
def PrepareMetadata (hash : String) (namespaceTag : String) : List (String × String) :=
  [(MetadataKeySHA256, hash), (MetadataKeyCreatedBy, MetadataValueCreatedBy)] ++
    (if namespaceTag ≠ "" then splitTag namespaceTag else [])

/-- The S3 requests an executor can issue for an upload. -/
inductive S3Action where
  | put (key : String) (body : List Nat) (size : Int) (metadata : List (String × String))
  | createUpload (key : String)
  | uploadPart (key : String) (partNumber : Nat) (body : List Nat)
  | completeUpload (key : String)
  | abortUpload (key : String)
deriving Repr, DecidableEq

/-- Whether an action belongs to the multipart protocol. -/
def S3Action.isMultipart : S3Action → Bool
  | .put _ _ _ _ => false
  | _ => true

/-- executePut: generates the payload and its hash for the drawn size,
prepares metadata, and issues a single-shot PutObject of the whole body.
No size threshold is consulted and no multipart path exists. -/
def Runner.executePut (gen : Generator) (namespaceTag : String) (key : String) (size : Int) :
    Except String S3Action :=
  match gen.GenerateAndHash key size with
  | .error e => .error e
  | .ok p => .ok (.put key p.1.readAll.1 size (PrepareMetadata p.2 namespaceTag))

/-- The closed set of scheduler operation kinds (internal/workload/scheduler.go). -/
inductive OpType where
  | opPut
  | opGet
  | opDelete
  | opCopy
  | opList
  | opHead
  | opMultipartPut
deriving Repr, DecidableEq

/-- The executors the executeOp switch can dispatch to. -/
inductive Executor where
  | put
  | get
  | del
  | copy
  | list
  | head
deriving Repr, DecidableEq

/-- The executeOp switch: one case per operation except multipart_put, which
has no case and therefore dispatches to no executor. -/
def Runner.dispatch : OpType → Option Executor
  | .opPut => some .put
  | .opGet => some .get
  | .opDelete => some .del
  | .opCopy => some .copy
  | .opList => some .list
  | .opHead => some .head
  | .opMultipartPut => none

/-!
Helper lemmas about the random reader.
-/

/-- Reading never changes the seed or the size. -/
theorem RandomReader.read_seed_size (r : RandomReader) (n : Nat) :
    (r.read n).2.seed = r.seed ∧ (r.read n).2.size = r.size := by
  unfold RandomReader.read
  split <;> exact ⟨rfl, rfl⟩

/-- Reading keeps the position non-negative. -/
theorem RandomReader.read_pos_nonneg (r : RandomReader) (n : Nat) (h : 0 ≤ r.position) :
    0 ≤ (r.read n).2.position := by
  unfold RandomReader.read
  split
  case isTrue => exact h
  case isFalse => exact add_nonneg h (Int.natCast_nonneg _)

/-- Seeking to offset 0 from the start resets position and rng regardless of
the current state. -/
theorem RandomReader.seek_zero (r : RandomReader) (h : 0 ≤ r.position) :
    r.seek 0 .start = .ok (0, { r with position := 0, consumed := 0 }) := by
  unfold RandomReader.seek
  by_cases hs : r.size < 0
  · have h1 : ¬ ((0 : Int) < 0) := by omega
    have h2 : r.size ≠ 0 := by omega
    have h3 : r.size < r.position := by omega
    have h4 : r.size ≤ (0 : Int) := le_of_lt hs
    simp only [h1, if_false, if_pos hs, if_neg h2, if_pos h3, ite_false]
    unfold RandomReader.read
    simp [h4]
  · simp [hs]

/-- Resetting position and consumed commutes with a preceding read. -/
theorem RandomReader.read_then_reset (r : RandomReader) (n : Nat) :
    ({ (r.read n).2 with position := 0, consumed := 0 } : RandomReader) =
      { r with position := 0, consumed := 0 } := by
  unfold RandomReader.read
  split <;> rfl

/-- A read in the non-EOF case delivers the next n stream bytes when n fits
in the remainder. -/
theorem RandomReader.read_eq (r : RandomReader) (n : Nat)
    (h1 : ¬ r.size ≤ r.position) (h2 : (n : Int) ≤ r.size - r.position) :
    r.read n = (prngBytes r.seed r.consumed n,
      { r with position := r.position + n, consumed := r.consumed + n }) := by
  unfold RandomReader.read
  simp only [if_neg h1, min_eq_left h2, Int.toNat_natCast]

/-- ReadAll always delivers the stream bytes from the consumed offset for the
remaining length. -/
theorem RandomReader.readAll_eq (r : RandomReader) :
    (r.readAll).1 = prngBytes r.seed r.consumed (r.size - r.position).toNat := by
  unfold RandomReader.readAll
  by_cases h : r.size ≤ r.position
  · have hz : (r.size - r.position).toNat = 0 := by omega
    rw [hz]
    unfold RandomReader.read
    rw [if_pos h]
    rfl
  · rw [RandomReader.read_eq r _ h (le_of_eq (Int.toNat_of_nonneg (by omega)))]

/-- A backward seek (to p strictly below the position, p within bounds)
resets the rng and fast-forwards it to exactly p consumed bytes. -/
theorem RandomReader.seek_backward (r : RandomReader) (p : Int)
    (hp0 : 0 ≤ p) (hppos : p < r.position) (hpsize : p ≤ r.size) :
    r.seek p .start = .ok (p, { r with position := p, consumed := p.toNat }) := by
  unfold RandomReader.seek
  rw [if_neg (not_lt.mpr hp0)]
  rw [if_neg (not_lt.mpr hpsize)]
  by_cases hz : p = 0
  · subst hz
    rw [if_pos rfl]
    rfl
  · rw [if_neg hz, if_pos hppos]
    have h1 : ¬ ({ r with position := (0 : Int), consumed := 0 } : RandomReader).size ≤
        ({ r with position := (0 : Int), consumed := 0 } : RandomReader).position := by
      simp only []
      omega
    have h2 : ((p.toNat : Nat) : Int) ≤
        ({ r with position := (0 : Int), consumed := 0 } : RandomReader).size -
          ({ r with position := (0 : Int), consumed := 0 } : RandomReader).position := by
      simp only []
      omega
    simp only [RandomReader.read_eq _ _ h1 h2]
    simp [Int.toNat_of_nonneg hp0]

/-- A forward seek within bounds moves only the position counter. -/
theorem RandomReader.seek_forward (r : RandomReader) (p : Int)
    (hpos : r.position < p) (hsize : p ≤ r.size) (hp : 0 < p) :
    r.seek p .start = .ok (p, { r with position := p }) := by
  unfold RandomReader.seek
  rw [if_neg (not_lt.mpr hp.le)]
  rw [if_neg (not_lt.mpr hsize)]
  rw [if_neg (ne_of_gt hp)]
  rw [if_neg (not_lt.mpr hpos.le)]

/-- C6: for a random-pattern source, Read(n); Seek(0, start); Read(n) yields two
equal buffers (the seek returns exactly the freshly created reader, so the
second read is the first); and more generally, a backward seek to any
position p restores the reader to stream offset p, so the bytes read
afterwards are the deterministic stream bytes from offset p onward. -/
theorem randomReader_read_seek_read_equal :
    (∀ (key : String) (base size : Int) (n : Nat),
      (((newRandomReader key base size).read n).2.seek 0 .start).map
          (fun pr => (pr.2.read n).1) =
        .ok ((newRandomReader key base size).read n).1) ∧
    (∀ (r : RandomReader) (p : Int), 0 ≤ p → p < r.position → r.position ≤ r.size →
      r.seek p .start =
        .ok (p, { r with position := p, consumed := p.toNat }) ∧
      (RandomReader.readAll { r with position := p, consumed := p.toNat }).1 =
        prngBytes r.seed p.toNat (r.size - p).toNat) := by
  constructor
  · intro key base size n
    have h0 : (0 : Int) ≤ (newRandomReader key base size).position := le_refl 0
    rw [RandomReader.seek_zero _ (RandomReader.read_pos_nonneg _ n h0)]
    rw [RandomReader.read_then_reset]
    rfl
  · intro r p hp0 hppos hpsize
    refine ⟨RandomReader.seek_backward r p hp0 hppos (le_trans hppos.le hpsize), ?_⟩
    rw [RandomReader.readAll_eq]

/-- C6 witness: backward restoration applied to a concrete reader state. -/
theorem randomReader_read_seek_read_equal_witness :
    (RandomReader.seek { seed := 9, size := 6, position := 4, consumed := 4 } 2 .start =
      .ok (2, { seed := 9, size := 6, position := 2, consumed := 2 }) ∧
    (RandomReader.readAll { seed := 9, size := 6, position := 2, consumed := 2 }).1 =
      prngBytes 9 2 4) :=
  randomReader_read_seek_read_equal.2
    { seed := 9, size := 6, position := 4, consumed := 4 } 2
    (by decide) (by decide) (by decide)

/-- C9: a forward seek (to p above the current position) only moves the
position counter, leaving the rng state untouched, so the bytes read
afterwards are the continuation of the PRNG stream from the already-consumed
offset, not the deterministic stream bytes at offset p; on a concrete reader
the two differ. -/
theorem randomReader_forward_seek_skips_stream :
    (∀ (r : RandomReader) (p : Int), r.position < p → p ≤ r.size → 0 < p →
      r.seek p .start = .ok (p, { r with position := p }) ∧
      (RandomReader.readAll { r with position := p }).1 =
        prngBytes r.seed r.consumed (r.size - p).toNat) ∧
    (RandomReader.readAll
        { seed := (newRandomReader "k" 1 4).seed, size := 4, position := 3, consumed := 1 }).1 ≠
      prngBytes (newRandomReader "k" 1 4).seed 3 1 := by
  constructor
  · intro r p hpos hsize hp
    refine ⟨RandomReader.seek_forward r p hpos hsize hp, ?_⟩
    rw [RandomReader.readAll_eq]
  · decide

/-- C9 witness: the forward-seek law applied to a concrete reader state. -/
theorem randomReader_forward_seek_skips_stream_witness :
    (RandomReader.seek { seed := 9, size := 6, position := 1, consumed := 1 } 4 .start =
      .ok (4, { seed := 9, size := 6, position := 4, consumed := 1 }) ∧
    (RandomReader.readAll { seed := 9, size := 6, position := 4, consumed := 1 }).1 =
      prngBytes 9 1 2) :=
  randomReader_forward_seek_skips_stream.1
    { seed := 9, size := 6, position := 1, consumed := 1 } 4
    (by decide) (by decide) (by decide)

/-- Stated from the claim words, for comparison with the code: the effective
seed using the first EIGHT bytes of SHA-256(key) as a little-endian 64-bit
integer XORed into the base seed. -/
def specSeedLE8 (base : Int) (key : String) : Int :=
  let h := sha256Bytes (strBytes key)
  int64Xor base (natAsInt64 ((h.getD 0 0) ||| ((h.getD 1 0) <<< 8) ||| ((h.getD 2 0) <<< 16) |||
    ((h.getD 3 0) <<< 24) ||| ((h.getD 4 0) <<< 32) ||| ((h.getD 5 0) <<< 40) |||
    ((h.getD 6 0) <<< 48) ||| ((h.getD 7 0) <<< 56)))

/-- Stated from the claim words, big-endian variant of the eight-byte
interpretation. -/
def specSeedBE8 (base : Int) (key : String) : Int :=
  let h := sha256Bytes (strBytes key)
  int64Xor base (natAsInt64 ((h.getD 7 0) ||| ((h.getD 6 0) <<< 8) ||| ((h.getD 5 0) <<< 16) |||
    ((h.getD 4 0) <<< 24) ||| ((h.getD 3 0) <<< 32) ||| ((h.getD 2 0) <<< 40) |||
    ((h.getD 1 0) <<< 48) ||| ((h.getD 0 0) <<< 56)))

/-- C2 counterexample: at base seed 42 and key "test-key" the reader seed the
code computes differs from base XOR the first eight SHA-256 bytes of the key
taken as a 64-bit integer, in either byte order: the code mixes only the
first four bytes. -/
theorem newRandomReader_seed_not_eight_bytes :
    (newRandomReader "test-key" 42 1024).seed ≠ specSeedLE8 42 "test-key" ∧
    (newRandomReader "test-key" 42 1024).seed ≠ specSeedBE8 42 "test-key" := by
  constructor <;> decide

/-- The amended mixing quantity: the first FOUR bytes of SHA-256(key),
little-endian, as the code computes. -/
def keySeedLE4 (key : String) : Nat :=
  let h := sha256Bytes (strBytes key)
  (h.getD 0 0) ||| ((h.getD 1 0) <<< 8) ||| ((h.getD 2 0) <<< 16) ||| ((h.getD 3 0) <<< 24)

/-- C2 (amended): the effective seed is base XOR the first FOUR bytes of
SHA-256(key) interpreted little-endian, and for every (pattern, key, length)
two independent GenerateAndHash calls yield byte-identical streams and
identical SHA-256 digests. -/
theorem randomReader_seed_mix_and_determinism :
    (∀ (base size : Int) (key : String),
      (newRandomReader key base size).seed = int64Xor base ((keySeedLE4 key : Nat) : Int)) ∧
    (∀ (pattern key : String) (size : Int) (g : Generator) (r1 r2 : GoReader) (h1 h2 : String),
      NewGenerator pattern = .ok g →
      g.GenerateAndHash key size = .ok (r1, h1) →
      g.GenerateAndHash key size = .ok (r2, h2) →
      r1.readAll.1 = r2.readAll.1 ∧ h1 = h2) := by
  constructor
  · intro base size key
    rfl
  · intro pattern key size g r1 r2 h1 h2 _hg hE1 hE2
    have hpair := Except.ok.inj (hE1.symm.trans hE2)
    have hr : r1 = r2 := congrArg Prod.fst hpair
    have hh : h1 = h2 := congrArg Prod.snd hpair
    exact ⟨by rw [hr], hh⟩

/-- C2 witness: the determinism clause applied to the generator parsed from
pattern random:42 at key "test-key" and size 8, whose value is computed
concretely. -/
theorem randomReader_seed_mix_and_determinism_witness :
    (GoReader.random { seed := 76001096, size := 8, position := 0, consumed := 0 }).readAll.1 =
      (GoReader.random { seed := 76001096, size := 8, position := 0, consumed := 0 }).readAll.1 ∧
    "5c5d8223c23f5a80fba881828f0c30348d461073bcb603191a1ac6a4a63b352a" =
      "5c5d8223c23f5a80fba881828f0c30348d461073bcb603191a1ac6a4a63b352a" :=
  randomReader_seed_mix_and_determinism.2 "random:42" "test-key" 8
    { pattern := "random:42", seed := 42, fixed := [] }
    (.random { seed := 76001096, size := 8, position := 0, consumed := 0 })
    (.random { seed := 76001096, size := 8, position := 0, consumed := 0 })
    "5c5d8223c23f5a80fba881828f0c30348d461073bcb603191a1ac6a4a63b352a"
    "5c5d8223c23f5a80fba881828f0c30348d461073bcb603191a1ac6a4a63b352a"
    (by decide) (by decide) (by decide)

/-- Mapping the constant zero over a range gives a replicate. -/
theorem range_map_const_zero (k : Nat) :
    (List.range k).map (fun _ => (0 : Nat)) = List.replicate k 0 := by
  induction k with
  | zero => rfl
  | succ n ih =>
      rw [List.range_succ, List.map_append, ih, List.replicate_succ']
      rfl

/-- C8: NewGenerator accepts pattern random:0, but the parsed generator has
seed 0 and no fixed bytes, so Generate falls through to the defensive default
and returns a fixed-pattern reader over the single byte 0x00: every payload
is all zero bytes, for every key. -/
theorem generator_random_zero_yields_zero_bytes :
    NewGenerator "random:0" = .ok { pattern := "random:0", seed := 0, fixed := [] } ∧
    (∀ (key : String) (size : Int),
      Generator.Generate { pattern := "random:0", seed := 0, fixed := [] } key size =
        .fixedR { pattern := [0], size := size, position := 0 }) ∧
    (∀ (key : String) (size : Int), 0 ≤ size →
      (Generator.Generate { pattern := "random:0", seed := 0, fixed := [] } key size).readAll.1 =
        List.replicate size.toNat 0) := by
  refine ⟨by decide, fun key size => rfl, fun key size h => ?_⟩
  show (FixedReader.readAll { pattern := [0], size := size, position := 0 }).1 =
    List.replicate size.toNat 0
  unfold FixedReader.readAll FixedReader.read
  by_cases hle : size ≤ 0
  · have hz : size = 0 := le_antisymm hle h
    subst hz
    rfl
  · have h0 : ¬ (({ pattern := [0], size := size, position := 0 } : FixedReader).size ≤
        ({ pattern := [0], size := size, position := 0 } : FixedReader).position) := hle
    simp only [if_neg h0]
    have hmin : min (((size - (0 : Int)).toNat : Nat) : Int)
        (({ pattern := [0], size := size, position := 0 } : FixedReader).size -
          ({ pattern := [0], size := size, position := 0 } : FixedReader).position) =
        (((size - (0 : Int)).toNat : Nat) : Int) :=
      min_eq_left (le_of_eq (Int.toNat_of_nonneg (by omega)))
    simp only [hmin, Int.toNat_natCast]
    have : ∀ i : Nat, ([0] : List Nat).getD
        ((((0 : Int) + (i : Int)) % (([0] : List Nat).length : Int)).toNat) 0 = 0 := by
      intro i
      simp
    rw [List.map_congr_left (fun i _ => this i), range_map_const_zero]
    congr 1
    omega

/-- C8 witness: the all-zero payload law at key "k" and size 5. -/
theorem generator_random_zero_yields_zero_bytes_witness :
    (Generator.Generate { pattern := "random:0", seed := 0, fixed := [] } "k" 5).readAll.1 =
      List.replicate ((5 : Int)).toNat 0 :=
  generator_random_zero_yields_zero_bytes.2.2 "k" 5 (by decide)

/-- C10: UniformSize.Next is safe only when min does not exceed max: for
min < max it returns min plus the Int63n(max-min+1) draw, which lies in
[min, max]; for min == max it short-circuits to min; for min > max the
Int63n argument is non-positive and the call panics; and nothing in
ParseSizeDistribution rejects min > max: the uniform spec with min 10 and
max 1 parses successfully. -/
theorem uniformSize_next_spec :
    ParseSizeDistribution "uniform:min=10,max=1" 42 = .ok (.uniform 10 1) ∧
    (∀ (lo hi draw : Int), lo < hi → 0 ≤ draw → draw ≤ hi - lo →
      uniformSizeNext lo hi draw = some (lo + draw) ∧
      lo ≤ lo + draw ∧ lo + draw ≤ hi) ∧
    (∀ (lo draw : Int), uniformSizeNext lo lo draw = some lo) ∧
    (∀ (lo hi draw : Int), hi < lo → uniformSizeNext lo hi draw = none) := by
  refine ⟨by decide, ?_, ?_, ?_⟩
  · intro lo hi draw h1 h2 h3
    have hne : lo ≠ hi := ne_of_lt h1
    have hpos : ¬ (hi - lo + 1 ≤ 0) := by omega
    unfold uniformSizeNext
    rw [if_neg hne, if_neg hpos]
    exact ⟨rfl, by omega, by omega⟩
  · intro lo draw
    unfold uniformSizeNext
    rw [if_pos rfl]
  · intro lo hi draw h
    have hne : lo ≠ hi := by omega
    have hpos : hi - lo + 1 ≤ 0 := by omega
    unfold uniformSizeNext
    rw [if_neg hne, if_pos hpos]

/-- C10 witness: a draw inside the range, the equal-bounds case, and the
panicking min > max case at concrete values. -/
theorem uniformSize_next_spec_witness :
    (uniformSizeNext 1 3 1 = some (1 + 1) ∧ (1 : Int) ≤ 1 + 1 ∧ (1 : Int) + 1 ≤ 3) ∧
    uniformSizeNext 5 5 7 = some 5 ∧
    uniformSizeNext 10 1 0 = none :=
  ⟨uniformSize_next_spec.2.1 1 3 1 (by decide) (by decide) (by decide),
   uniformSize_next_spec.2.2.1 5 7,
   uniformSize_next_spec.2.2.2 10 1 0 (by decide)⟩

/-- C7: the ParseSize unit table (none or B is 1, K/KB 1000, Ki/KiB 1024,
M/MB 10^6, Mi/MiB 2^20, G/GB 10^9, Gi/GiB 2^30), case-insensitivity of the
suffix (the table is consulted only through the upper-cased unit, and
lowercase spellings give the same values), the empty-input error, and
ParseSize("1.5MB") = 1500000. -/
theorem parseSize_table_spec :
    ParseSize "1" = .ok 1 ∧ ParseSize "1B" = .ok 1 ∧
    ParseSize "1K" = .ok 1000 ∧ ParseSize "1KB" = .ok 1000 ∧
    ParseSize "1Ki" = .ok 1024 ∧ ParseSize "1KiB" = .ok 1024 ∧
    ParseSize "1M" = .ok 1000000 ∧ ParseSize "1MB" = .ok 1000000 ∧
    ParseSize "1Mi" = .ok 1048576 ∧ ParseSize "1MiB" = .ok 1048576 ∧
    ParseSize "1G" = .ok 1000000000 ∧ ParseSize "1GB" = .ok 1000000000 ∧
    ParseSize "1Gi" = .ok 1073741824 ∧ ParseSize "1GiB" = .ok 1073741824 ∧
    ParseSize "1.5MB" = .ok 1500000 ∧
    ParseSize "" = .error "empty size string" ∧
    ParseSize "1kb" = .ok 1000 ∧ ParseSize "1kib" = .ok 1024 ∧
    ParseSize "1mb" = .ok 1000000 ∧ ParseSize "1mib" = .ok 1048576 ∧
    ParseSize "1gb" = .ok 1000000000 ∧ ParseSize "1gib" = .ok 1073741824 ∧
    ParseSize "1b" = .ok 1 ∧
    (∀ u v : List Char, u.map Char.toUpper = v.map Char.toUpper →
      unitMultiplier u = unitMultiplier v) := by
  refine ⟨by decide, by rfl, by decide, by rfl, by decide, by rfl, by decide, by rfl,
    by decide, by rfl, by decide, by rfl, by decide, by rfl, by decide, by rfl,
    by decide, by rfl, by decide, by rfl, by decide, by rfl, by decide, ?_⟩
  intro u v h
  unfold unitMultiplier
  rw [h]

/-- C7 witness: the case-insensitivity clause applied to the lowercase and
uppercase spellings of the KB suffix. -/
theorem parseSize_table_spec_witness :
    unitMultiplier "kb".data = unitMultiplier "KB".data :=
  parseSize_table_spec.2.2.2.2.2.2.2.2.2.2.2.2.2.2.2.2.2.2.2.2.2.2.2
    "kb".data "KB".data (by decide)

/-- Seeking a fixedReader to offset 0 always succeeds for non-negative size. -/
theorem FixedReader.seek_zero_fixed (f : FixedReader) (h : 0 ≤ f.size) :
    f.seek 0 .start = .ok (0, { f with position := 0 }) := by
  unfold FixedReader.seek
  rw [if_neg (by omega : ¬ ((0 : Int) < 0)), if_neg (not_lt.mpr h)]

/-- Resetting the position commutes with a preceding fixed read. -/
theorem FixedReader.read_then_reset_fixed (f : FixedReader) (n : Nat) :
    ({ (f.read n).2 with position := 0 } : FixedReader) = { f with position := 0 } := by
  unfold FixedReader.read
  split <;> rfl

/-- Draining a fresh random reader and seeking back to 0 restores it. -/
theorem GoReader.readAll_seek_zero_random (rr : RandomReader)
    (h1 : rr.position = 0) (h2 : rr.consumed = 0) :
    ((GoReader.random rr).readAll.2).seek 0 .start = .ok (0, .random rr) := by
  simp only [GoReader.readAll, GoReader.seek]
  have hp : 0 ≤ (rr.readAll).2.position := by
    unfold RandomReader.readAll
    exact RandomReader.read_pos_nonneg _ _ (le_of_eq h1.symm)
  rw [RandomReader.seek_zero _ hp]
  have he : ({ (rr.readAll).2 with position := 0, consumed := 0 } : RandomReader) = rr := by
    unfold RandomReader.readAll
    rw [RandomReader.read_then_reset]
    cases rr
    simp_all
  rw [he]

/-- Draining a fresh fixed reader and seeking back to 0 restores it. -/
theorem GoReader.readAll_seek_zero_fixed (fr : FixedReader)
    (h1 : 0 ≤ fr.size) (h2 : fr.position = 0) :
    ((GoReader.fixedR fr).readAll.2).seek 0 .start = .ok (0, .fixedR fr) := by
  simp only [GoReader.readAll, GoReader.seek]
  have hsz : 0 ≤ ((fr.readAll).2).size := by
    unfold FixedReader.readAll FixedReader.read
    split
    · exact h1
    · exact h1
  rw [FixedReader.seek_zero_fixed _ hsz]
  have he : ({ (fr.readAll).2 with position := 0 } : FixedReader) = fr := by
    unfold FixedReader.readAll
    rw [FixedReader.read_then_reset_fixed]
    cases fr
    simp_all
  rw [he]

/-- For non-negative sizes GenerateAndHash always succeeds, returning the
reader rewound to offset 0 and the hex SHA-256 of the full payload. -/
theorem Generator.generateAndHash_ok (g : Generator) (key : String) (size : Int)
    (h : 0 ≤ size) :
    g.GenerateAndHash key size =
      .ok (g.Generate key size, hexEncode (sha256Bytes (g.Generate key size).readAll.1)) := by
  simp only [Generator.GenerateAndHash]
  by_cases h1 : g.seed ≠ 0
  · have hG : g.Generate key size = .random (newRandomReader key g.seed size) := by
      unfold Generator.Generate
      rw [if_pos h1]
    rw [hG, GoReader.readAll_seek_zero_random (newRandomReader key g.seed size) rfl rfl]
  · by_cases h2 : 0 < g.fixed.length
    · have hG : g.Generate key size =
          .fixedR { pattern := g.fixed, size := size, position := 0 } := by
        unfold Generator.Generate
        rw [if_neg h1, if_pos h2]
      rw [hG, GoReader.readAll_seek_zero_fixed
        { pattern := g.fixed, size := size, position := 0 } h rfl]
    · have hG : g.Generate key size =
          .fixedR { pattern := [0], size := size, position := 0 } := by
        unfold Generator.Generate
        rw [if_neg h1, if_neg h2]
      rw [hG, GoReader.readAll_seek_zero_fixed
        { pattern := [0], size := size, position := 0 } h rfl]

/-- C1: the Runner has no multipart path. For every drawn size, including
sizes at or above any multipart threshold, executePut issues a single-shot
PutObject of the whole payload with the sha256 and created-by metadata, and
the executeOp switch dispatches multipart_put to no executor at all. -/
theorem runner_executePut_single_shot :
    (∀ (gen : Generator) (namespaceTag key : String) (size threshold : Int),
      0 ≤ size → threshold ≤ size →
      Runner.executePut gen namespaceTag key size =
        .ok (.put key (gen.Generate key size).readAll.1 size
          (PrepareMetadata (hexEncode (sha256Bytes (gen.Generate key size).readAll.1))
            namespaceTag))) ∧
    Runner.dispatch .opMultipartPut = none := by
  refine ⟨?_, rfl⟩
  intro gen namespaceTag key size threshold h0 _ht
  simp only [Runner.executePut]
  rw [Generator.generateAndHash_ok gen key size h0]

/-- C1 witness: a 15 MiB object above a 10 MiB threshold (with a 10 MiB part
size, so size mod part size is nonzero) is still uploaded by a single
PutObject. -/
theorem runner_executePut_single_shot_witness :
    Runner.executePut { pattern := "random:42", seed := 42, fixed := [] } "" "obj-0000.bin"
        15728640 =
      .ok (.put "obj-0000.bin"
        (Generator.Generate { pattern := "random:42", seed := 42, fixed := [] } "obj-0000.bin"
            15728640).readAll.1
        15728640
        (PrepareMetadata
          (hexEncode (sha256Bytes
            (Generator.Generate { pattern := "random:42", seed := 42, fixed := [] } "obj-0000.bin"
                15728640).readAll.1))
          "")) :=
  runner_executePut_single_shot.1 { pattern := "random:42", seed := 42, fixed := [] }
    "" "obj-0000.bin" 15728640 10485760 (by decide) (by decide)

/-- The delay value the loop holds before the k-th retry sleep, starting
from d: iterate the multiply-and-clamp step. -/
def delayIter (cfg : RetryConfig) (d : ℚ) : Nat → ℚ
  | 0 => d
  | k + 1 => delayStep cfg (delayIter cfg d k)

/-- Iterating from a stepped start is a shift. -/
theorem delayIter_shift (cfg : RetryConfig) (d : ℚ) (k : Nat) :
    delayIter cfg (delayStep cfg d) k = delayIter cfg d (k + 1) := by
  induction k with
  | zero => rfl
  | succ m ih => simp only [delayIter, ih]

/-- The Go clamp shape is a min. -/
theorem clamp_eq_min (y mx : ℚ) : (if mx < y then mx else y) = min y mx := by
  rcases le_or_lt y mx with h | h
  · rw [if_neg (not_lt.mpr h), min_eq_left h]
  · rw [if_pos h, min_eq_right h.le]

/-- Closed form of the iterated delay: with a non-negative initial delay not
exceeding maxDelay and a non-negative multiplier, the delay before the k-th
retry is min(initialDelay * multiplier^k, maxDelay). -/
theorem delayIter_min (cfg : RetryConfig)
    (h0 : 0 ≤ cfg.initialDelay) (h1 : cfg.initialDelay ≤ cfg.maxDelay)
    (hm : 0 ≤ cfg.multiplier) (k : Nat) :
    delayIter cfg cfg.initialDelay k =
      min (cfg.initialDelay * cfg.multiplier ^ k) cfg.maxDelay := by
  rcases le_total 1 cfg.multiplier with hm1 | hm1
  · induction k with
    | zero => simp [delayIter, min_eq_left h1]
    | succ k ih =>
        rw [show delayIter cfg cfg.initialDelay (k + 1) =
          delayStep cfg (delayIter cfg cfg.initialDelay k) from rfl, ih]
        unfold delayStep
        simp only []
        rw [clamp_eq_min]
        have hpow : cfg.initialDelay * cfg.multiplier ^ (k + 1) =
            (cfg.initialDelay * cfg.multiplier ^ k) * cfg.multiplier := by ring
        rcases le_total (cfg.initialDelay * cfg.multiplier ^ k) cfg.maxDelay with ha | hb
        · rw [min_eq_left ha, hpow]
        · rw [min_eq_right hb]
          have h2 : cfg.maxDelay ≤ cfg.maxDelay * cfg.multiplier :=
            le_mul_of_one_le_right (le_trans h0 h1) hm1
          have h3 : cfg.maxDelay ≤ cfg.initialDelay * cfg.multiplier ^ k * cfg.multiplier :=
            le_trans h2 (mul_le_mul_of_nonneg_right hb hm)
          rw [min_eq_right h2, hpow, min_eq_right h3]
  · have aux : ∀ k : Nat, delayIter cfg cfg.initialDelay k =
        cfg.initialDelay * cfg.multiplier ^ k ∧
        cfg.initialDelay * cfg.multiplier ^ k ≤ cfg.maxDelay := by
      intro k
      induction k with
      | zero => simpa [delayIter] using h1
      | succ k ih =>
          obtain ⟨he, hbnd⟩ := ih
          have hX : 0 ≤ cfg.initialDelay * cfg.multiplier ^ k :=
            mul_nonneg h0 (pow_nonneg hm k)
          have hdesc : cfg.initialDelay * cfg.multiplier ^ k * cfg.multiplier ≤
              cfg.initialDelay * cfg.multiplier ^ k :=
            mul_le_of_le_one_right hX hm1
          have hb2 : cfg.initialDelay * cfg.multiplier ^ (k + 1) ≤ cfg.maxDelay := by
            calc cfg.initialDelay * cfg.multiplier ^ (k + 1)
                = cfg.initialDelay * cfg.multiplier ^ k * cfg.multiplier := by ring
              _ ≤ cfg.initialDelay * cfg.multiplier ^ k := hdesc
              _ ≤ cfg.maxDelay := hbnd
          refine ⟨?_, hb2⟩
          rw [show delayIter cfg cfg.initialDelay (k + 1) =
            delayStep cfg (delayIter cfg cfg.initialDelay k) from rfl, he]
          unfold delayStep
          simp only []
          rw [clamp_eq_min]
          have hpe : cfg.initialDelay * cfg.multiplier ^ k * cfg.multiplier =
              cfg.initialDelay * cfg.multiplier ^ (k + 1) := by ring
          rw [hpe, min_eq_left hb2]
    obtain ⟨he, hbnd⟩ := aux k
    rw [he, min_eq_left hbnd]

/-- One unfolding of the loop on a retryable failure with fuel remaining. -/
theorem withRetryAux_retry_step (cfg : RetryConfig) (f : Nat → String) (jd : Nat → ℚ)
    (attempt fuel : Nat) (d : ℚ) (le0 : String)
    (hr : isRetryable (f attempt) = true) (hfz : fuel ≠ 0) :
    withRetryAux cfg (fun n => some (f n)) jd attempt (fuel + 1) d le0 =
      { attempts := (withRetryAux cfg (fun n => some (f n)) jd (attempt + 1) fuel
            (delayStep cfg d) (f attempt)).attempts + 1,
        backoffs := (if cfg.jitter then d * jd attempt else d) ::
          (withRetryAux cfg (fun n => some (f n)) jd (attempt + 1) fuel
            (delayStep cfg d) (f attempt)).backoffs,
        outcome := (withRetryAux cfg (fun n => some (f n)) jd (attempt + 1) fuel
            (delayStep cfg d) (f attempt)).outcome } := by
  simp only [withRetryAux]
  rw [if_neg (by simp [hr])]
  rw [if_neg hfz]

/-- When every attempt fails with a retryable error, the loop runs out of
fuel: it performs exactly fuel attempts, sleeps the jitter-scaled iterated
delay before each retry, and wraps the last error. -/
theorem withRetryAux_all_retryable (cfg : RetryConfig) (f : Nat → String) (jd : Nat → ℚ)
    (hf : ∀ n, isRetryable (f n) = true) :
    ∀ (fuel attempt : Nat) (d : ℚ) (le0 : String), 1 ≤ fuel →
      withRetryAux cfg (fun n => some (f n)) jd attempt fuel d le0 =
        { attempts := fuel,
          backoffs := (List.range (fuel - 1)).map
            (fun k => (if cfg.jitter then jd (attempt + k) else 1) * delayIter cfg d k),
          outcome := .error ("max retries exceeded: " ++ f (attempt + fuel - 1)) } := by
  intro fuel
  induction fuel with
  | zero => intro attempt d le0 h; exact absurd h (by omega)
  | succ m ih =>
      intro attempt d le0 _h
      cases m with
      | zero =>
          simp only [withRetryAux]
          rw [if_neg (by simp [hf attempt])]
          simp
      | succ mm =>
          rw [withRetryAux_retry_step cfg f jd attempt (mm + 1) d le0 (hf attempt) (by omega)]
          rw [ih (attempt + 1) (delayStep cfg d) (f attempt) (by omega)]
          simp only [RetryResult.mk.injEq]
          refine ⟨trivial, ?_, ?_⟩
          · rw [show mm + 1 + 1 - 1 = (mm + 1 - 1) + 1 from by omega]
            rw [List.range_succ_eq_map, List.map_cons, List.map_map]
            congr 1
            · cases hj : cfg.jitter <;> simp [hj, mul_comm, delayIter]
            · apply List.map_congr_left
              intro k _
              simp only [Function.comp]
              rw [delayIter_shift]
              have hidx : attempt + 1 + k = attempt + Nat.succ k := by omega
              rw [hidx]
          · have hidx : attempt + 1 + (mm + 1) - 1 = attempt + (mm + 1 + 1) - 1 := by omega
            rw [hidx]

/-- C5 counterexample: with initialDelay 100 and maxDelay 50 (multiplier 2,
jitter off, two attempts, an always-retryable error) the single backoff slept
is 100, but the claimed formula min(initialDelay * multiplier^(1-1), maxDelay)
gives 50: the code never clamps the first delay against maxDelay. -/
theorem withRetry_first_delay_unclamped :
    WithRetry
        { maxAttempts := 2, initialDelay := 100, maxDelay := 50, multiplier := 2,
          jitter := false }
        (fun _ => some "timeout") (fun _ => 1) =
      { attempts := 2, backoffs := [100], outcome := .error "max retries exceeded: timeout" } ∧
    ¬ ((100 : ℚ) = min ((100 : ℚ) * 2 ^ (0 : Nat)) 50) := by
  constructor
  · decide
  · intro h
    rw [pow_zero, mul_one, min_eq_right (by norm_num : (50 : ℚ) ≤ 100)] at h
    norm_num at h

/-- C5 (amended): provided initialDelay is non-negative and does not exceed
maxDelay and the multiplier is non-negative, a function always returning a
retryable error is attempted exactly maxAttempts times, the n-th backoff is
min(initialDelay * multiplier^(n-1), maxDelay) scaled by the jitter draw when
jitter is on, and the result wraps the last error; a non-retryable first
error short-circuits to exactly one attempt with the error returned
unwrapped. -/
theorem withRetry_backoff_spec :
    (∀ (cfg : RetryConfig) (f : Nat → String) (jd : Nat → ℚ),
      (∀ n, isRetryable (f n) = true) →
      1 ≤ cfg.maxAttempts →
      0 ≤ cfg.initialDelay → cfg.initialDelay ≤ cfg.maxDelay → 0 ≤ cfg.multiplier →
      WithRetry cfg (fun n => some (f n)) jd =
        { attempts := cfg.maxAttempts.toNat,
          backoffs := (List.range (cfg.maxAttempts.toNat - 1)).map
            (fun k => (if cfg.jitter then jd (1 + k) else 1) *
              min (cfg.initialDelay * cfg.multiplier ^ k) cfg.maxDelay),
          outcome := .error ("max retries exceeded: " ++ f cfg.maxAttempts.toNat) }) ∧
    (∀ (cfg : RetryConfig) (f : Nat → Option String) (jd : Nat → ℚ) (e : String),
      f 1 = some e → isRetryable e = false → 1 ≤ cfg.maxAttempts →
      WithRetry cfg f jd = { attempts := 1, backoffs := [], outcome := .error e }) := by
  constructor
  · intro cfg f jd hf hA h0 h1 hm
    have hA1 : 1 ≤ cfg.maxAttempts.toNat := by omega
    unfold WithRetry
    rw [withRetryAux_all_retryable cfg f jd hf cfg.maxAttempts.toNat 1 cfg.initialDelay "" hA1]
    simp only [RetryResult.mk.injEq]
    refine ⟨trivial, ?_, ?_⟩
    · apply List.map_congr_left
      intro k _
      rw [delayIter_min cfg h0 h1 hm k]
    · have hidx : 1 + cfg.maxAttempts.toNat - 1 = cfg.maxAttempts.toNat := by omega
      rw [hidx]
  · intro cfg f jd e hf1 hre hA
    have hA1 : 1 ≤ cfg.maxAttempts.toNat := by omega
    unfold WithRetry
    rw [show cfg.maxAttempts.toNat = (cfg.maxAttempts.toNat - 1) + 1 from by omega]
    simp only [withRetryAux, hf1]
    rw [if_pos (by simp [hre])]

/-- C5 witness: the retryable clause at a config whose delay hypotheses hold
reflexively, and the non-retryable clause at the default config with an
AccessDenied error: one attempt, error returned unwrapped. -/
theorem withRetry_backoff_spec_witness :
    (WithRetry
        { maxAttempts := 2, initialDelay := 0, maxDelay := 0, multiplier := 0, jitter := false }
        (fun n => some ((fun _ => "timeout") n)) (fun _ => 1) =
      { attempts := (2 : Int).toNat,
        backoffs := (List.range ((2 : Int).toNat - 1)).map
          (fun k => (if false then (1 : ℚ) else 1) * min ((0 : ℚ) * (0 : ℚ) ^ k) (0 : ℚ)),
        outcome := .error ("max retries exceeded: " ++ "timeout") }) ∧
    WithRetry DefaultRetryConfig (fun _ => some "AccessDenied") (fun _ => 1) =
      { attempts := 1, backoffs := [], outcome := .error "AccessDenied" } :=
  ⟨withRetry_backoff_spec.1
      { maxAttempts := 2, initialDelay := 0, maxDelay := 0, multiplier := 0, jitter := false }
      (fun _ => "timeout") (fun _ => 1)
      (fun _ => (by decide : isRetryable "timeout" = true)) (by decide)
      (le_refl 0) (le_refl 0) (le_refl 0),
   withRetry_backoff_spec.2 DefaultRetryConfig (fun _ => some "AccessDenied") (fun _ => 1)
      "AccessDenied" rfl (by decide) (by decide)⟩

/-- Full characterization of the cleanup loop: the count is the number of
metadata matches among the listed objects, and the resulting store drops
exactly the objects whose key is a listed matching key. -/
theorem cleanupLoop_spec (mkey mval : String) :
    ∀ (L store : List StoredObject),
      (cleanupLoop mkey mval L store).1 =
        (L.filter (fun o => decide (metaLookup o.metadata mkey = some mval))).length ∧
      (cleanupLoop mkey mval L store).2 =
        store.filter (fun o => decide (o.key ∉
          ((L.filter (fun o2 => decide (metaLookup o2.metadata mkey = some mval))).map
            StoredObject.key))) := by
  intro L
  induction L with
  | nil =>
      intro store
      refine ⟨rfl, ?_⟩
      simp [cleanupLoop]
  | cons o L ih =>
      intro store
      by_cases hm : metaLookup o.metadata mkey = some mval
      · refine ⟨?_, ?_⟩
        · simp only [cleanupLoop, if_pos hm]
          rw [(ih (deleteByKey store o.key)).1]
          simp [hm]
        · simp only [cleanupLoop, if_pos hm]
          rw [(ih (deleteByKey store o.key)).2]
          unfold deleteByKey
          rw [List.filter_filter]
          rw [List.filter_cons_of_pos (by simp [hm])]
          rw [List.map_cons]
          apply List.filter_congr
          intro x _
          by_cases h1 : x.key = o.key <;>
            by_cases h2 : x.key ∈ (L.filter
              (fun o2 => decide (metaLookup o2.metadata mkey = some mval))).map
                StoredObject.key <;>
            simp [h1, h2]
      · refine ⟨?_, ?_⟩
        · simp only [cleanupLoop, if_neg hm]
          rw [(ih store).1]
          simp [hm]
        · simp only [cleanupLoop, if_neg hm]
          rw [(ih store).2]
          rw [List.filter_cons_of_neg (by simp [hm])]

/-- C4: with unique keys (S3 bucket keys are unique), DeleteObjectsByMetadata
deletes exactly the objects under the prefix whose metadata maps the given
key to the given value (the cleanup sentinel in reference use): the count is
the number of such objects, the surviving store is exactly the complement,
and an object whose metadata value is absent or different is never deleted. -/
theorem cleanup_deletes_exactly_matching :
    ∀ (store : List StoredObject) (pre mkey mval : String),
      (store.map StoredObject.key).Nodup →
      (DeleteObjectsByMetadata store pre mkey mval =
        ((store.filter (fun o => listStartsWith o.key.data pre.data &&
            decide (metaLookup o.metadata mkey = some mval))).length,
         store.filter (fun o => !(listStartsWith o.key.data pre.data &&
            decide (metaLookup o.metadata mkey = some mval))))) ∧
      (∀ o ∈ store, metaLookup o.metadata mkey ≠ some mval →
        o ∈ (DeleteObjectsByMetadata store pre mkey mval).2) := by
  intro store pre mkey mval hnd
  have hinj := List.inj_on_of_nodup_map hnd
  obtain ⟨h1, h2⟩ := cleanupLoop_spec mkey mval
    (store.filter fun o => listStartsWith o.key.data pre.data) store
  have hmain : DeleteObjectsByMetadata store pre mkey mval =
      ((store.filter (fun o => listStartsWith o.key.data pre.data &&
          decide (metaLookup o.metadata mkey = some mval))).length,
       store.filter (fun o => !(listStartsWith o.key.data pre.data &&
          decide (metaLookup o.metadata mkey = some mval)))) := by
    rw [show DeleteObjectsByMetadata store pre mkey mval =
      ((DeleteObjectsByMetadata store pre mkey mval).1,
       (DeleteObjectsByMetadata store pre mkey mval).2) from rfl]
    unfold DeleteObjectsByMetadata listUnderPfx
    rw [h1, h2]
    simp only [Prod.mk.injEq]
    constructor
    case' left =>
      rw [List.filter_filter]
      apply congrArg List.length
      apply List.filter_congr
      intro x _
      by_cases hp : listStartsWith x.key.data pre.data = true <;>
        by_cases hq : metaLookup x.metadata mkey = some mval <;> simp [hp, hq]
    case' right =>
      apply List.filter_congr
      intro x hx
      by_cases hp : listStartsWith x.key.data pre.data = true <;>
        by_cases hq : metaLookup x.metadata mkey = some mval
      · simp only [hp, hq]
        simp
        exact ⟨x, hx, hq, hp, rfl⟩
      all_goals
        simp [hp, hq]
      all_goals
        intro o2 ho2 hm2 hp2 hkeq
        have hxx : o2 = x := hinj ho2 hx hkeq
        subst hxx
        first
          | exact hq hm2
          | exact hp hp2
  refine ⟨hmain, ?_⟩
  intro o ho hne
  rw [show (DeleteObjectsByMetadata store pre mkey mval).2 =
    store.filter (fun o => !(listStartsWith o.key.data pre.data &&
      decide (metaLookup o.metadata mkey = some mval))) from congrArg Prod.snd hmain]
  exact List.mem_filter.mpr ⟨ho, by simp [hne]⟩

/-- C4 witness: cleanup over a four-object store (a matching object, one
with a different created-by, one with no created-by, one outside the prefix)
returns exactly the count and complement store given by the matching filter. -/
theorem cleanup_deletes_exactly_matching_witness :
    DeleteObjectsByMetadata
        ([{ key := "bench/a", metadata := [("created-by", "s3-workload")] },
         { key := "bench/b", metadata := [("created-by", "other")] },
         { key := "bench/c", metadata := [] },
         { key := "foreign/f", metadata := [("created-by", "s3-workload")] }] : List StoredObject)
        "bench/" "created-by" "s3-workload" =
      (List.length (List.filter (fun o : StoredObject =>
          listStartsWith o.key.data "bench/".data &&
          decide (metaLookup o.metadata "created-by" = some "s3-workload"))
          ([{ key := "bench/a", metadata := [("created-by", "s3-workload")] },
         { key := "bench/b", metadata := [("created-by", "other")] },
         { key := "bench/c", metadata := [] },
         { key := "foreign/f", metadata := [("created-by", "s3-workload")] }] : List StoredObject)),
       List.filter (fun o : StoredObject => !(listStartsWith o.key.data "bench/".data &&
          decide (metaLookup o.metadata "created-by" = some "s3-workload")))
          ([{ key := "bench/a", metadata := [("created-by", "s3-workload")] },
         { key := "bench/b", metadata := [("created-by", "other")] },
         { key := "bench/c", metadata := [] },
         { key := "foreign/f", metadata := [("created-by", "s3-workload")] }] : List StoredObject)) :=
  (cleanup_deletes_exactly_matching
    ([{ key := "bench/a", metadata := [("created-by", "s3-workload")] },
         { key := "bench/b", metadata := [("created-by", "other")] },
         { key := "bench/c", metadata := [] },
         { key := "foreign/f", metadata := [("created-by", "s3-workload")] }] : List StoredObject)
    "bench/" "created-by" "s3-workload" (by decide)).1

/-- A list starts with itself followed by anything. -/
theorem listStartsWith_self_append (p t : List Char) : listStartsWith (p ++ t) p = true := by
  induction p with
  | nil => cases t <;> rfl
  | cons c p ih => simp [listStartsWith, ih]

/-- If the marker occurs nowhere (window scan false), the marker search finds
nothing. -/
theorem findSeqStart_eq_none (l : List Char)
    (h : findSubstring l seqMarkerOpen = false) : findSeqStart l = none := by
  induction l with
  | nil => rfl
  | cons c l ih =>
      rw [show findSubstring (c :: l) seqMarkerOpen =
        (listStartsWith (c :: l) seqMarkerOpen || findSubstring l seqMarkerOpen) from rfl] at h
      rw [Bool.or_eq_false_iff] at h
      simp [findSeqStart, h.1, ih h.2]

/-- Any list starting with the marker has the four marker characters in
front. -/
theorem startsWith_marker_shape (rest : List Char)
    (h : listStartsWith rest seqMarkerOpen = true) :
    ∃ t, rest = lbrace :: 's' :: 'e' :: 'q' :: t := by
  match rest with
  | [] => simp [listStartsWith, seqMarkerOpen] at h
  | [a] => simp [listStartsWith, seqMarkerOpen] at h
  | [a, b] => simp [listStartsWith, seqMarkerOpen] at h
  | [a, b, c] => simp [listStartsWith, seqMarkerOpen] at h
  | a :: b :: c :: d :: t =>
      simp only [listStartsWith, seqMarkerOpen, Bool.and_eq_true, decide_eq_true_eq] at h
      obtain ⟨ha, hb, hc, hd, -⟩ := h
      subst ha
      subst hb
      subst hc
      subst hd
      exact ⟨t, rfl⟩

/-- The first marker of s1 ++ rest, when s1 has no marker window and rest
starts with the marker, is at position length of s1 (the marker has no
self-overlap, so no window straddling the boundary can match). -/
theorem findSeqStart_append (s1 rest : List Char)
    (h1 : findSubstring s1 seqMarkerOpen = false)
    (h2 : listStartsWith rest seqMarkerOpen = true) :
    findSeqStart (s1 ++ rest) = some s1.length := by
  obtain ⟨t, rfl⟩ := startsWith_marker_shape rest h2
  induction s1 with
  | nil => simp [findSeqStart, h2]
  | cons c s1 ih =>
      rw [show findSubstring (c :: s1) seqMarkerOpen =
        (listStartsWith (c :: s1) seqMarkerOpen || findSubstring s1 seqMarkerOpen) from rfl] at h1
      rw [Bool.or_eq_false_iff] at h1
      have hno : listStartsWith (c :: (s1 ++ lbrace :: 's' :: 'e' :: 'q' :: t))
          seqMarkerOpen = false := by
        match s1, h1 with
        | [], h1 =>
            simp [listStartsWith, seqMarkerOpen, lbrace]
        | [a], h1 =>
            simp [listStartsWith, seqMarkerOpen, lbrace]
        | [a, b], h1 =>
            simp [listStartsWith, seqMarkerOpen, lbrace]
        | a :: b :: d :: s1x, h1 =>
            have hh := h1.1
            simp only [listStartsWith, seqMarkerOpen, List.cons_append] at hh ⊢
            exact hh
      rw [List.cons_append, findSeqStart]
      rw [hno]
      simp only [Bool.false_eq_true, if_false]
      rw [ih h1.2]
      rfl

/-- The first closing character after a closing-free block sits right behind
it. -/
theorem findCharIdx_append_self (c : Char) (l t : List Char)
    (h : l.all (fun x => decide (x ≠ c)) = true) :
    findCharIdx c (l ++ c :: t) = some l.length := by
  induction l with
  | nil => simp [findCharIdx]
  | cons x l ih =>
      simp only [List.all_cons, Bool.and_eq_true, decide_eq_true_eq] at h
      simp [findCharIdx, h.1, ih h.2]

/-- A closing-free list has no closing character. -/
theorem findCharIdx_eq_none (c : Char) (l : List Char)
    (h : l.all (fun x => decide (x ≠ c)) = true) :
    findCharIdx c l = none := by
  induction l with
  | nil => rfl
  | cons x l ih =>
      simp only [List.all_cons, Bool.and_eq_true, decide_eq_true_eq] at h
      simp [findCharIdx, h.1, ih h.2]

/-- Dropping the left block plus k drops k of the right block. -/
theorem drop_append_len {α : Type} (l₁ l₂ : List α) (k : Nat) :
    (l₁ ++ l₂).drop (l₁.length + k) = l₂.drop k := by
  induction l₁ with
  | nil => simp
  | cons c l ih =>
      rw [List.cons_append, show (c :: l).length + k = (l.length + k) + 1 from by
        simp [List.length_cons]; omega, List.drop_succ_cons, ih]

/-- Plain marker: the first well-formed marker after a marker-free block is
replaced by the unpadded decimal. -/
theorem replacePlaceholder_plain (s1 s2 : List Char) (seq : Int)
    (h1 : findSubstring s1 seqMarkerOpen = false) :
    replacePlaceholder (s1 ++ (seqMarkerOpen ++ rbrace :: s2)) seq =
      s1 ++ itoaChars seq ++ s2 := by
  have hsw : listStartsWith (seqMarkerOpen ++ rbrace :: s2) seqMarkerOpen = true :=
    listStartsWith_self_append seqMarkerOpen (rbrace :: s2)
  have hfs := findSeqStart_append s1 (seqMarkerOpen ++ rbrace :: s2) h1 hsw
  have hdrop : (s1 ++ (seqMarkerOpen ++ rbrace :: s2)).drop s1.length =
      seqMarkerOpen ++ rbrace :: s2 := List.drop_left s1 _
  have hfc2 : findCharIdx rbrace (seqMarkerOpen ++ rbrace :: s2) = some 4 :=
    findCharIdx_append_self rbrace seqMarkerOpen s2 (by decide)
  have hph : (seqMarkerOpen ++ rbrace :: s2).take (4 + 1) = seqMarkerOpen ++ [rbrace] := by
    rw [show seqMarkerOpen ++ rbrace :: s2 = (seqMarkerOpen ++ [rbrace]) ++ s2 from by simp]
    rw [show (4 + 1 : Nat) = (seqMarkerOpen ++ [rbrace]).length from by simp [seqMarkerOpen]]
    exact List.take_left _ _
  have htk : (s1 ++ (seqMarkerOpen ++ rbrace :: s2)).take s1.length = s1 := List.take_left s1 _
  have hdk : (s1 ++ (seqMarkerOpen ++ rbrace :: s2)).drop (s1.length + 4 + 1) = s2 := by
    rw [show s1.length + 4 + 1 = s1.length + 5 from by omega, drop_append_len]
    rfl
  simp only [replacePlaceholder, hfs, hdrop, hfc2, hph, htk, hdk]
  simp

/-- Width marker: the first marker with a colon after a marker-free block is
replaced by the Atoi-interpreted width format, degrading to the unpadded
decimal when the width does not parse or is not positive. -/
theorem replacePlaceholder_width (s1 ws s2 : List Char) (seq : Int)
    (h1 : findSubstring s1 seqMarkerOpen = false)
    (hws : ws.all (fun c => decide (c ≠ rbrace)) = true) :
    replacePlaceholder (s1 ++ (seqMarkerOpen ++ ':' :: (ws ++ rbrace :: s2))) seq =
      s1 ++ (match goParseInt64 ws with
             | some w => if 0 < w then padIntChars w seq else itoaChars seq
             | none => itoaChars seq) ++ s2 := by
  have hsw : listStartsWith (seqMarkerOpen ++ ':' :: (ws ++ rbrace :: s2)) seqMarkerOpen = true :=
    listStartsWith_self_append seqMarkerOpen _
  have hfs := findSeqStart_append s1 (seqMarkerOpen ++ ':' :: (ws ++ rbrace :: s2)) h1 hsw
  have hdrop : (s1 ++ (seqMarkerOpen ++ ':' :: (ws ++ rbrace :: s2))).drop s1.length =
      seqMarkerOpen ++ ':' :: (ws ++ rbrace :: s2) := List.drop_left s1 _
  have hshape : seqMarkerOpen ++ ':' :: (ws ++ rbrace :: s2) =
      (seqMarkerOpen ++ ':' :: ws) ++ rbrace :: s2 := by simp
  have hall : ((seqMarkerOpen ++ ':' :: ws).all (fun c => decide (c ≠ rbrace))) = true := by
    rw [List.all_append, List.all_cons, hws]
    decide
  have hfc2 : findCharIdx rbrace (seqMarkerOpen ++ ':' :: (ws ++ rbrace :: s2)) =
      some (5 + ws.length) := by
    rw [hshape, findCharIdx_append_self rbrace _ s2 hall]
    rw [show (seqMarkerOpen ++ ':' :: ws).length = 5 + ws.length from by
      simp [seqMarkerOpen]
      omega]
  have hph : (seqMarkerOpen ++ ':' :: (ws ++ rbrace :: s2)).take (5 + ws.length + 1) =
      (seqMarkerOpen ++ ':' :: ws) ++ [rbrace] := by
    rw [show seqMarkerOpen ++ ':' :: (ws ++ rbrace :: s2) =
      ((seqMarkerOpen ++ ':' :: ws) ++ [rbrace]) ++ s2 from by simp]
    rw [show (5 + ws.length + 1 : Nat) = ((seqMarkerOpen ++ ':' :: ws) ++ [rbrace]).length
      from by
        simp [seqMarkerOpen]
        omega]
    exact List.take_left _ _
  have htk : (s1 ++ (seqMarkerOpen ++ ':' :: (ws ++ rbrace :: s2))).take s1.length = s1 :=
    List.take_left s1 _
  have hdk : (s1 ++ (seqMarkerOpen ++ ':' :: (ws ++ rbrace :: s2))).drop
      (s1.length + (5 + ws.length) + 1) = s2 := by
    rw [show s1.length + (5 + ws.length) + 1 = s1.length + (6 + ws.length) from by omega,
      drop_append_len]
    rw [show seqMarkerOpen ++ ':' :: (ws ++ rbrace :: s2) =
      ((seqMarkerOpen ++ ':' :: ws) ++ [rbrace]) ++ s2 from by simp]
    rw [show (6 + ws.length : Nat) = ((seqMarkerOpen ++ ':' :: ws) ++ [rbrace]).length
      from by
        simp [seqMarkerOpen]
        omega]
    exact List.drop_left _ _
  have hne : ¬ ((seqMarkerOpen ++ ':' :: ws) ++ [rbrace] = seqMarkerOpen ++ [rbrace]) := by
    intro hc
    have hlc := congrArg List.length hc
    simp [seqMarkerOpen] at hlc
  have hcolon : listStartsWith ((seqMarkerOpen ++ ':' :: ws) ++ [rbrace])
      (seqMarkerOpen ++ [':']) = true := by
    rw [show (seqMarkerOpen ++ ':' :: ws) ++ [rbrace] =
      (seqMarkerOpen ++ [':']) ++ (ws ++ [rbrace]) from by simp]
    exact listStartsWith_self_append _ _
  have hfmt : (((seqMarkerOpen ++ ':' :: ws) ++ [rbrace]).drop 5).take
      (((seqMarkerOpen ++ ':' :: ws) ++ [rbrace]).length - 6) = ws := by
    rw [show (seqMarkerOpen ++ ':' :: ws) ++ [rbrace] =
      (seqMarkerOpen ++ [':']) ++ (ws ++ [rbrace]) from by simp]
    rw [show (5 : Nat) = (seqMarkerOpen ++ [':']).length from by simp [seqMarkerOpen]]
    rw [List.drop_left]
    rw [show ((seqMarkerOpen ++ [':']) ++ (ws ++ [rbrace])).length - 6 = ws.length
      from by simp [seqMarkerOpen]]
    rw [show (ws ++ [rbrace] : List Char) = ws ++ [rbrace] from rfl]
    exact List.take_left _ _
  simp only [replacePlaceholder, hfs, hdrop, hfc2, hph, htk, hdk]
  rw [if_neg hne, if_pos hcolon, hfmt]

/-- Unclosed marker: with no closing brace anywhere at or after the first
marker, the template is returned unchanged. -/
theorem replacePlaceholder_unclosed (s1 s3 : List Char) (seq : Int)
    (h1 : findSubstring s1 seqMarkerOpen = false)
    (h3 : s3.all (fun c => decide (c ≠ rbrace)) = true) :
    replacePlaceholder (s1 ++ (seqMarkerOpen ++ s3)) seq = s1 ++ (seqMarkerOpen ++ s3) := by
  have hsw : listStartsWith (seqMarkerOpen ++ s3) seqMarkerOpen = true :=
    listStartsWith_self_append seqMarkerOpen s3
  have hfs := findSeqStart_append s1 (seqMarkerOpen ++ s3) h1 hsw
  have hdrop : (s1 ++ (seqMarkerOpen ++ s3)).drop s1.length = seqMarkerOpen ++ s3 :=
    List.drop_left s1 _
  have hfc2 : findCharIdx rbrace (seqMarkerOpen ++ s3) = none := by
    apply findCharIdx_eq_none
    rw [List.all_append, h3]
    decide
  simp only [replacePlaceholder, hfs, hdrop, hfc2]

/-- No marker: the template is returned unchanged. -/
theorem replacePlaceholder_no_marker (t : List Char) (seq : Int)
    (h : findSubstring t seqMarkerOpen = false) :
    replacePlaceholder t seq = t := by
  simp only [replacePlaceholder, findSeqStart_eq_none t h]

/-- C3 (amended): KeyGenerator.Generate returns prefix ++ rendered template,
where after a marker-free block the first plain seq marker is replaced by the
unpadded decimal of seq, a width marker is replaced by the zero-padded decimal
when the width parses to a positive integer and degrades to the unpadded
decimal otherwise (non-numeric or non-positive width), a template with no
marker is returned unchanged, and a marker with no closing brace leaves the
template unchanged (it does NOT degrade to the unpadded decimal). -/
theorem keyGenerator_generate_render_spec
    (pfx : String) (keys seq : Int) (s1 s2 ws s3 t : List Char)
    (h1 : findSubstring s1 seqMarkerOpen = false)
    (hws : ws.all (fun c => decide (c ≠ rbrace)) = true)
    (h3 : s3.all (fun c => decide (c ≠ rbrace)) = true)
    (ht : findSubstring t seqMarkerOpen = false) :
    (KeyGenerator.Generate ⟨pfx, ⟨s1 ++ (seqMarkerOpen ++ rbrace :: s2)⟩, keys⟩ seq
        = pfx ++ ⟨s1 ++ itoaChars seq ++ s2⟩)
    ∧ (KeyGenerator.Generate ⟨pfx, ⟨s1 ++ (seqMarkerOpen ++ ':' :: (ws ++ rbrace :: s2))⟩, keys⟩ seq
        = pfx ++ ⟨s1 ++ (match goParseInt64 ws with
               | some w => if 0 < w then padIntChars w seq else itoaChars seq
               | none => itoaChars seq) ++ s2⟩)
    ∧ (KeyGenerator.Generate ⟨pfx, ⟨t⟩, keys⟩ seq = pfx ++ ⟨t⟩)
    ∧ (KeyGenerator.Generate ⟨pfx, ⟨s1 ++ (seqMarkerOpen ++ s3)⟩, keys⟩ seq
        = pfx ++ ⟨s1 ++ (seqMarkerOpen ++ s3)⟩) := by
  refine ⟨?_, ?_, ?_, ?_⟩
  · simp only [KeyGenerator.Generate]
    rw [replacePlaceholder_plain s1 s2 seq h1]
  · simp only [KeyGenerator.Generate]
    rw [replacePlaceholder_width s1 ws s2 seq h1 hws]
  · simp only [KeyGenerator.Generate]
    rw [replacePlaceholder_no_marker t seq ht]
  · simp only [KeyGenerator.Generate]
    rw [replacePlaceholder_unclosed s1 s3 seq h1 h3]

/-- C3 counterexample: a template whose marker has no closing brace is
returned unchanged, not rendered with the unpadded decimal as the claim
states. -/
theorem keyGenerator_unclosed_marker_unchanged_cex :
    KeyGenerator.Generate ⟨"", "a\x7bseq", 10⟩ 5 = "a\x7bseq" ∧
    ("a\x7bseq" : String) ≠ "a5" := by
  exact ⟨by decide, by decide⟩

/-- C3 witness: the amended rendering rules evaluated at concrete inputs. -/
theorem keyGenerator_generate_render_spec_witness :
    (KeyGenerator.Generate
        ⟨"bench/", ⟨"obj-".data ++ (seqMarkerOpen ++ rbrace :: ".bin".data)⟩, 10⟩ 42
      = "bench/obj-42.bin")
    ∧ (KeyGenerator.Generate
        ⟨"bench/", ⟨"obj-".data ++ (seqMarkerOpen ++ ':' :: ("08".data ++ rbrace :: ".bin".data))⟩,
          10⟩ 42
      = "bench/obj-00000042.bin")
    ∧ (KeyGenerator.Generate
        ⟨"bench/", ⟨"obj-".data ++ (seqMarkerOpen ++ ':' :: ("xx".data ++ rbrace :: ".bin".data))⟩,
          10⟩ 42
      = "bench/obj-42.bin")
    ∧ (KeyGenerator.Generate ⟨"bench/", ⟨"plain".data⟩, 10⟩ 42 = "bench/plain")
    ∧ (KeyGenerator.Generate ⟨"bench/", ⟨"obj-".data ++ (seqMarkerOpen ++ ":3".data)⟩, 10⟩ 42
      = ⟨"bench/".data ++ ("obj-".data ++ (seqMarkerOpen ++ ":3".data))⟩) := by
  refine ⟨?_, ?_, ?_, ?_, ?_⟩
  · exact (keyGenerator_generate_render_spec "bench/" 10 42 "obj-".data ".bin".data
      "08".data ":3".data "plain".data (by decide) (by decide) (by decide) (by decide)).1.trans
      (by decide)
  · exact ((keyGenerator_generate_render_spec "bench/" 10 42 "obj-".data ".bin".data
      "08".data ":3".data "plain".data (by decide) (by decide) (by decide)
      (by decide)).2.1).trans (by decide)
  · exact ((keyGenerator_generate_render_spec "bench/" 10 42 "obj-".data ".bin".data
      "xx".data ":3".data "plain".data (by decide) (by decide) (by decide)
      (by decide)).2.1).trans (by decide)
  · exact ((keyGenerator_generate_render_spec "bench/" 10 42 "obj-".data ".bin".data
      "08".data ":3".data "plain".data (by decide) (by decide) (by decide)
      (by decide)).2.2.1).trans (by decide)
  · exact ((keyGenerator_generate_render_spec "bench/" 10 42 "obj-".data ".bin".data
      "08".data ":3".data "plain".data (by decide) (by decide) (by decide)
      (by decide)).2.2.2).trans (by decide)
